import Mathlib

/-!
Shallow embedding of the survey lifecycle and reminder engine of the
`slack_survey_bot` repository.

The embedding models the persistent store as an explicit `DB` value and each
database / handler operation of the source as a pure state-passing function:

* `src/shared/schemas/surveys.py` — the `Survey`, `SurveyResponse` and
  `SurveySentMessage` table rows;
* `src/shared/services/database/surveys/crud.py` — the CRUD managers;
* `src/shared/services/database/user_lists/crud.py` — `get_list_member_slack_ids`
  (modelled as the `list_members` component of the state: the member slack ids
  of each audience list, with an unknown list id mapping to the empty set,
  exactly as `get_list_members` returns no rows for an unknown id);
* `src/bot/services/reminder_service.py` — the reminder pass, the tick and the
  background loop;
* `src/bot/handlers/survey.py` — `handle_survey_submit` and the audience
  resolution inside `handle_survey_start`.

Timestamps (`datetime.utcnow()`, `created_at`, `last_reminder_sent_at`) and the
`Float` column `reminder_interval_hours` are modelled as integers in an
abstract time unit, so that `timedelta(hours=x)` comparisons become plain
subtraction and ordering; no claim below depends on fractional time values.  Slack calls (`chat_postMessage`) are modelled by oracle functions in
a `SlackCtx`: per-recipient success flags and the message `ts` the platform
would return.  Python exceptions are modelled as `Option`/explicit outcome
values: a computation that raises yields `none` at the point where the source
propagates the exception.
-/

namespace SlackSurveyBot

/-- Row of the `survey_responses` table (`shared/schemas/surveys.py`,
class `SurveyResponse`). -/
structure SurveyResponseRow where
  survey_id : Nat
  responder_slack_id : String
  responder_name : String
  answer : String
deriving DecidableEq, Repr

/-- Row of the `survey_sent_messages` table (`shared/schemas/surveys.py`,
class `SurveySentMessage`).  The model declares no uniqueness constraint on
`(survey_id, receiver_slack_id)`, mirroring the source, where —unlike
`UserListMember`, which carries `UniqueConstraint("user_list_id", "user_id")`—
the `SurveySentMessage` table has no table args at all. -/
structure SurveySentMessageRow where
  survey_id : Nat
  receiver_slack_id : String
  message_ts : String
deriving DecidableEq, Repr

/-- Row of the `surveys` table (`shared/schemas/surveys.py`, class `Survey`).
`reminders_sent_count` is `Option Int` so that the Python guard
`(survey.reminders_sent_count or 0)` (crud.py line 228) is modelled by
`Option.getD 0`; `last_reminder_sent_at` is nullable. -/
structure Survey where
  id : Nat
  survey_name : String
  survey_text : String
  owner_slack_id : String
  owner_name : String
  is_active : Bool
  users_incl : Option String
  users_excl : Option String
  reminder_interval_hours : Int
  last_reminder_sent_at : Option Int
  reminders_sent_count : Option Int
  created_at : Int
deriving DecidableEq, Repr

/-- The persistent store.  `list_members` gives, for each audience-list id,
the set of member slack ids (`user_list_manager.get_list_member_slack_ids`);
a list id with no rows yields the empty set.  `next_id` models the
autoincrement primary key of the `surveys` table. -/
structure DB where
  surveys : List Survey
  responses : List SurveyResponseRow
  sent_messages : List SurveySentMessageRow
  list_members : Int → Finset String
  next_id : Nat

/-- Slack-side oracles for one reminder pass: the debug flag and admin set of
the bot (`self.app.bot.debug`, `self.app.bot.admins`), whether
`chat_postMessage` succeeds for the initial survey message / for the reminder
message to a given recipient, and the message `ts` Slack returns on a
successful initial send. -/
structure SlackCtx where
  debug : Bool
  admins : Finset String
  initOk : String → Bool
  remOk : String → Bool
  newTs : String → String

/-! ### CRUD operations (`shared/services/database/surveys/crud.py`) -/

/-- Source `SurveyCRUDManager.get_survey_by_id`: `scalar_one_or_none` on
`Survey.id == survey_id`; survey ids are primary keys, so with well-formed
states the filter matches at most one row and `find?` returns it. -/
def get_survey_by_id (db : DB) (survey_id : Nat) : Option Survey :=
  db.surveys.find? (fun s => s.id == survey_id)

/-- Mutate the survey row with the given primary key (SQLAlchemy attribute
assignment followed by commit).  Field updates in the source never change the
primary key, so `f` is always id-preserving at every use site. -/
def updateSurveyById (db : DB) (survey_id : Nat) (f : Survey → Survey) : DB :=
  { db with surveys := db.surveys.map (fun t => if t.id == survey_id then f t else t) }

/-- Source `SurveyCRUDManager.create_survey`: inserts a fresh row with
`is_active=True`, the moderation-list columns unset (the source constructor
does not pass `users_incl`/`users_excl`), counters at their column defaults,
and `created_at` the current time (`Base` model default). -/
def create_survey (db : DB) (survey_name survey_text owner_slack_id owner_name : String)
    (reminder_interval_hours : Int) (now : Int) : DB :=
  { db with
    surveys := db.surveys ++ [{
      id := db.next_id
      survey_name := survey_name
      survey_text := survey_text
      owner_slack_id := owner_slack_id
      owner_name := owner_name
      is_active := true
      users_incl := none
      users_excl := none
      reminder_interval_hours := reminder_interval_hours
      last_reminder_sent_at := none
      reminders_sent_count := some 0
      created_at := now }]
    next_id := db.next_id + 1 }

/-- Source `SurveyCRUDManager.close_survey`: look the survey up; if found set
`is_active = False` and commit; return the (possibly missing) survey. -/
def close_survey (db : DB) (survey_id : Nat) : DB × Option Survey :=
  match get_survey_by_id db survey_id with
  | none => (db, none)
  | some s =>
      (updateSurveyById db survey_id (fun t => { t with is_active := false }),
       some { s with is_active := false })

/-- Source `SurveyCRUDManager.update_survey_moderation_lists`: look the survey up
(raising "Survey not found" — modelled as no state change — when absent) and
overwrite `users_incl` / `users_excl`. -/
def update_survey_moderation_lists (db : DB) (survey_id : Nat)
    (users_incl users_excl : Option String) : DB :=
  match get_survey_by_id db survey_id with
  | none => db
  | some _ =>
      updateSurveyById db survey_id
        (fun t => { t with users_incl := users_incl, users_excl := users_excl })

/-- Source `SurveyCRUDManager.get_surveys_needing_reminder`: the query filters
`is_active == True` and `reminder_interval_hours > 0`; the Python loop then
keeps the surveys where `now - (last_reminder_sent_at or created_at)` is at
least the interval. -/
def get_surveys_needing_reminder (db : DB) (now : Int) : List Survey :=
  (db.surveys.filter
      (fun s => s.is_active && decide (0 < s.reminder_interval_hours))).filter
    (fun s =>
      decide (s.reminder_interval_hours ≤ now - (s.last_reminder_sent_at.getD s.created_at)))

/-- Source `SurveyCRUDManager.update_reminder_status`: look the survey up (returning
`None` with no state change when absent), then set
`last_reminder_sent_at = utcnow()` and
`reminders_sent_count = (reminders_sent_count or 0) + 1`. -/
def update_reminder_status (db : DB) (survey_id : Nat) (now : Int) : DB :=
  match get_survey_by_id db survey_id with
  | none => db
  | some _ =>
      updateSurveyById db survey_id
        (fun t => { t with
          last_reminder_sent_at := some now
          reminders_sent_count := some (t.reminders_sent_count.getD 0 + 1) })

/-- Source `SurveyResponseCRUDManager.add_response`: unconditional insert. -/
def add_response (db : DB) (survey_id : Nat) (responder_slack_id responder_name answer : String) :
    DB :=
  { db with responses := db.responses ++
      [{ survey_id := survey_id
         responder_slack_id := responder_slack_id
         responder_name := responder_name
         answer := answer }] }

/-- Source `SurveyResponseCRUDManager.get_responses_by_survey`. -/
def get_responses_by_survey (db : DB) (survey_id : Nat) : List SurveyResponseRow :=
  db.responses.filter (fun r => r.survey_id == survey_id)

/-- Source `SurveyResponseCRUDManager.check_user_responded`: whether a response row
for the pair exists. -/
def check_user_responded (db : DB) (survey_id : Nat) (responder_slack_id : String) : Bool :=
  db.responses.any
    (fun r => r.survey_id == survey_id && r.responder_slack_id == responder_slack_id)

/-- Source `SurveySentMessageCRUDManager.add_sent_message`: unconditional insert —
the source performs no existence check before `session.add` and the table
carries no uniqueness constraint on the `(survey, recipient)` pair. -/
def add_sent_message (db : DB) (survey_id : Nat) (receiver_slack_id message_ts : String) : DB :=
  { db with sent_messages := db.sent_messages ++
      [{ survey_id := survey_id
         receiver_slack_id := receiver_slack_id
         message_ts := message_ts }] }

/-- Source `SurveySentMessageCRUDManager.get_sent_messages`. -/
def get_sent_messages (db : DB) (survey_id : Nat) : List SurveySentMessageRow :=
  db.sent_messages.filter (fun m => m.survey_id == survey_id)

/-- Number of response rows stored for a `(survey, recipient)` pair. -/
def countResponses (db : DB) (survey_id : Nat) (responder_slack_id : String) : Nat :=
  db.responses.countP
    (fun r => r.survey_id == survey_id && r.responder_slack_id == responder_slack_id)

/-- Number of sent-message rows stored for a `(survey, recipient)` pair. -/
def countSent (db : DB) (survey_id : Nat) (receiver_slack_id : String) : Nat :=
  db.sent_messages.countP
    (fun m => m.survey_id == survey_id && m.receiver_slack_id == receiver_slack_id)

/-! ### Python string primitives

Char-level implementations of the Python primitives the resolvers use
(`str.split(",")`, `str.strip()`, `int()`), so that every definition
evaluates by kernel reduction on concrete inputs. -/

/-- Accumulator pass of `pySplitComma`. -/
def splitCommaAux : List Char → List Char → List String
  | [], acc => [String.mk acc.reverse]
  | c :: rest, acc =>
      if c = ',' then String.mk acc.reverse :: splitCommaAux rest []
      else splitCommaAux rest (c :: acc)

/-- Python `s.split(",")` for a non-empty `s`: the maximal comma-free
segments, keeping empty segments (`"a,".split(",") == ["a", ""]`). -/
def pySplitComma (s : String) : List String :=
  splitCommaAux s.data []

/-- The whitespace class of Python `str.strip()` (space, tab, newline,
carriage return, vertical tab, form feed). -/
def isPySpace (c : Char) : Bool :=
  c = ' ' || c = '\t' || c = '\n' || c = '\r' || c.toNat = 11 || c.toNat = 12

/-- Python `s.strip()`: drop leading and trailing whitespace. -/
def pyStrip (s : String) : String :=
  String.mk (((s.data.dropWhile isPySpace).reverse.dropWhile isPySpace).reverse)

/-- Decimal digit accumulation for `pyInt`. -/
def parseDigitsAux : List Char → Nat → Option Nat
  | [], acc => some acc
  | c :: rest, acc =>
      if c.isDigit then parseDigitsAux rest (acc * 10 + (c.toNat - 48)) else none

/-- Python `int(token)`: strip surrounding whitespace, then an optional sign
followed by at least one decimal digit; anything else raises `ValueError`
(modelled as `none`).  Underscore separators and non-ASCII digits, which
Python also accepts, are not modelled — no claim depends on them. -/
def pyInt (s : String) : Option Int :=
  match (pyStrip s).data with
  | [] => none
  | c :: rest =>
      if c = '-' then
        match rest with
        | [] => none
        | _ :: _ => (parseDigitsAux rest 0).map (fun n => -(n : Int))
      else if c = '+' then
        match rest with
        | [] => none
        | _ :: _ => (parseDigitsAux rest 0).map (fun n => (n : Int))
      else (parseDigitsAux (c :: rest) 0).map (fun n => (n : Int))

/-! ### Audience resolution

Two independent copies exist in the source: one inside
`ReminderService._send_reminders_for_survey` (reminder_service.py lines
86–103, which skips a comma token whose `strip()` is empty) and one inside
`SurveyHandler.handle_survey_start` (handlers/survey.py lines 277–292, which
applies `int()` to every token unconditionally). -/

/-- Source `survey.users_incl.split(",") if survey.users_incl else []`: a `NULL` or
empty (falsy) column yields no tokens, otherwise Python `str.split(",")`. -/
def splitField : Option String → List String
  | none => []
  | some s => if s = "" then [] else pySplitComma s

/-- The include loop of the reminder-service resolver: for each token whose
`strip()` is non-empty, fetch the list members and `set.update` them into the
accumulator; an unparsable token raises out of the pass. -/
def unionListsReminder (db : DB) : List String → Finset String → Option (Finset String)
  | [], acc => some acc
  | tok :: rest, acc =>
      if pyStrip tok = "" then unionListsReminder db rest acc
      else
        match pyInt tok with
        | none => none
        | some i => unionListsReminder db rest (acc ∪ db.list_members i)

/-- The exclude loop of the reminder-service resolver:
`set.difference_update` per token, with the same empty-token skip. -/
def diffListsReminder (db : DB) : List String → Finset String → Option (Finset String)
  | [], acc => some acc
  | tok :: rest, acc =>
      if pyStrip tok = "" then diffListsReminder db rest acc
      else
        match pyInt tok with
        | none => none
        | some i => diffListsReminder db rest (acc \ db.list_members i)

/-- Audience resolution as performed by
`ReminderService._send_reminders_for_survey`: start from the empty set, union
the members of every include list, then subtract the members of every exclude
list. -/
def resolveTargetReminder (db : DB) (s : Survey) : Option (Finset String) :=
  match unionListsReminder db (splitField s.users_incl) ∅ with
  | none => none
  | some t => diffListsReminder db (splitField s.users_excl) t

/-- The include loop of the `handle_survey_start` resolver: no empty-token
skip — `int(list_id)` is applied to every token. -/
def unionListsStart (db : DB) : List String → Finset String → Option (Finset String)
  | [], acc => some acc
  | tok :: rest, acc =>
      match pyInt tok with
      | none => none
      | some i => unionListsStart db rest (acc ∪ db.list_members i)

/-- The exclude loop of the `handle_survey_start` resolver. -/
def diffListsStart (db : DB) : List String → Finset String → Option (Finset String)
  | [], acc => some acc
  | tok :: rest, acc =>
      match pyInt tok with
      | none => none
      | some i => diffListsStart db rest (acc \ db.list_members i)

/-- Audience resolution as performed by `SurveyHandler.handle_survey_start`. -/
def resolveTargetStart (db : DB) (s : Survey) : Option (Finset String) :=
  match unionListsStart db (splitField s.users_incl) ∅ with
  | none => none
  | some t => diffListsStart db (splitField s.users_excl) t

/-- The spec-side resolver formula (`spec.md` §4.1 / P1): the union of the
members of the parsed include lists minus the union of the members of the
parsed exclude lists. -/
def resolveSpecFormula (db : DB) (s : Survey) : Finset String :=
  (((splitField s.users_incl).filterMap pyInt).toFinset.biUnion db.list_members) \
    (((splitField s.users_excl).filterMap pyInt).toFinset.biUnion db.list_members)

/-! ### The reminder pass (`ReminderService._send_reminders_for_survey`) -/

/-- Lexicographic comparison of char lists (by Unicode scalar value). -/
def listLeC : List Char → List Char → Bool
  | [], _ => true
  | _ :: _, [] => false
  | c :: cs, d :: ds => if c = d then listLeC cs ds else decide (c < d)

/-- Lexicographic order on slack-id strings, used only to fix a concrete
iteration order over Python sets. -/
def slackIdLe (a b : String) : Prop :=
  listLeC a.data b.data = true

instance : DecidableRel slackIdLe :=
  fun a b => instDecidableEqBool (listLeC a.data b.data) true

theorem listLeC_total : ∀ x y : List Char, listLeC x y = true ∨ listLeC y x = true
  | [], _ => Or.inl rfl
  | _ :: _, [] => Or.inr rfl
  | c :: cs, d :: ds => by
      by_cases h : c = d
      · subst h
        simpa [listLeC] using listLeC_total cs ds
      · rcases lt_or_gt_of_ne h with hlt | hgt
        · left; simp [listLeC, h, hlt]
        · right; simp [listLeC, Ne.symm h, hgt]

theorem listLeC_trans :
    ∀ x y z : List Char, listLeC x y = true → listLeC y z = true → listLeC x z = true
  | [], _, _, _, _ => rfl
  | _ :: _, [], _, hxy, _ => by simp [listLeC] at hxy
  | _ :: _, _ :: _, [], _, hyz => by simp [listLeC] at hyz
  | c :: cs, d :: ds, e :: es, hxy, hyz => by
      by_cases hcd : c = d
      · subst hcd
        by_cases hde : c = e
        · subst hde
          simp only [listLeC, if_pos rfl] at hxy hyz ⊢
          exact listLeC_trans cs ds es hxy hyz
        · simpa [listLeC, hde] using (by simpa [listLeC, hde] using hyz : decide (c < e) = true)
      · by_cases hde : d = e
        · subst hde
          simpa [listLeC, hcd] using (by simpa [listLeC, hcd] using hxy : decide (c < d) = true)
        · have h1 : c < d := by simpa [listLeC, hcd] using hxy
          have h2 : d < e := by simpa [listLeC, hde] using hyz
          have h3 : c < e := lt_trans h1 h2
          simp [listLeC, ne_of_lt h3, h3]

theorem listLeC_antisymm :
    ∀ x y : List Char, listLeC x y = true → listLeC y x = true → x = y
  | [], [], _, _ => rfl
  | [], _ :: _, _, hyx => by simp [listLeC] at hyx
  | _ :: _, [], hxy, _ => by simp [listLeC] at hxy
  | c :: cs, d :: ds, hxy, hyx => by
      by_cases h : c = d
      · subst h
        simp only [listLeC, if_pos rfl] at hxy hyx
        rw [listLeC_antisymm cs ds hxy hyx]
      · have h1 : c < d := by simpa [listLeC, h] using hxy
        have h2 : d < c := by simpa [listLeC, Ne.symm h] using hyx
        exact absurd h2 (lt_asymm h1)

instance : IsTrans String slackIdLe :=
  ⟨fun a b c => listLeC_trans a.data b.data c.data⟩

instance : IsTotal String slackIdLe :=
  ⟨fun a b => listLeC_total a.data b.data⟩

instance : IsAntisymm String slackIdLe :=
  ⟨fun a b hab hba => by
    cases a; cases b
    exact congrArg String.mk (listLeC_antisymm _ _ hab hba)⟩

/-- A concrete enumeration of a finite set of slack ids, used to model the
iteration `for user in some_python_set`.  Python's iteration order over a set
is unspecified; the model fixes the `slackIdLe`-sorted order, an admissible
order, and no theorem below depends on which order it is.  Defined by lifting
insertion sort to the underlying multiset (permutations have equal sorted
forms). -/
def enumFinset (s : Finset String) : List String :=
  Quot.liftOn s.val (fun l => List.insertionSort slackIdLe l)
    (fun a b hab =>
      List.eq_of_perm_of_sorted
        ((List.perm_insertionSort slackIdLe a).trans
          (hab.trans (List.perm_insertionSort slackIdLe b).symm))
        (List.sorted_insertionSort slackIdLe a)
        (List.sorted_insertionSort slackIdLe b))

/-- What one reminder pass did on the Slack side: the recipients that received
the initial survey message during the pass (in iteration order) and the
recipients that received a reminder message. -/
structure PassReport where
  initialSent : List String
  reminded : List String
deriving DecidableEq, Repr

/-- The `for target_user in new_users` loop: skip non-admins in debug mode;
otherwise `chat_postMessage` and, on success, `add_sent_message` — a failure
of either is caught per recipient (logged and skipped, no row written). -/
def sendInitialMessages (ctx : SlackCtx) (survey_id : Nat) :
    List String → DB → DB × List String
  | [], db => (db, [])
  | u :: rest, db =>
      if ctx.debug && !(u ∈ ctx.admins) then
        sendInitialMessages ctx survey_id rest db
      else if ctx.initOk u then
        let r := sendInitialMessages ctx survey_id rest (add_sent_message db survey_id u (ctx.newTs u))
        (r.1, u :: r.2)
      else
        sendInitialMessages ctx survey_id rest db

/-- Source `user_message_map.get(user_id)`: the dict comprehension
`{msg.receiver_slack_id: msg.message_ts for msg in sent_messages}` keeps the
last ts per receiver, so the lookup searches the row list from the end. -/
def lookupTs (msgs : List SurveySentMessageRow) (u : String) : Option String :=
  (msgs.reverse.find? (fun m => m.receiver_slack_id == u)).map (fun m => m.message_ts)

/-- The set of receivers of the sent rows of a survey
(`sent_user_ids = set(user_message_map.keys())`). -/
def sentUserIds (db : DB) (survey_id : Nat) : Finset String :=
  ((get_sent_messages db survey_id).map (fun m => m.receiver_slack_id)).toFinset

/-- The set of responders of a survey
(`responded_user_ids = {r.responder_slack_id for r in responses}`). -/
def respondedUserIds (db : DB) (survey_id : Nat) : Finset String :=
  ((get_responses_by_survey db survey_id).map (fun r => r.responder_slack_id)).toFinset

/-- One reminder pass for one survey (`_send_reminders_for_survey`).

Faithful structure: resolve the target audience (an unparsable list token
raises here, before any write — modelled as `none`); snapshot the sent rows
and build `user_message_map` / `sent_user_ids`; snapshot the responders;
send the initial message to `target − sent_user_ids` recording each success;
compute `unanswered = (sent_user_ids − responded) ∩ target` **from the
pre-pass snapshot**; send a threaded reminder to each unanswered user that
has a truthy stored ts (`if not original_msg_ts: continue`) and whose send
succeeds; finally call `update_reminder_status` unconditionally.

Python iterates sets in unspecified order; the model iterates them in sorted
order, which is one admissible order, and no theorem below depends on it. -/
def sendRemindersForSurvey (ctx : SlackCtx) (db : DB) (survey : Survey) (now : Int) :
    Option (DB × PassReport) :=
  match resolveTargetReminder db survey with
  | none => none
  | some target =>
      let sentMsgs := get_sent_messages db survey.id
      let sentIds := sentUserIds db survey.id
      let respondedIds := respondedUserIds db survey.id
      let newUsers := target \ sentIds
      let r := sendInitialMessages ctx survey.id (enumFinset newUsers) db
      let unanswered := (sentIds \ respondedIds) ∩ target
      let reminded :=
        (enumFinset unanswered).filter
          (fun u => ((lookupTs sentMsgs u).getD "" != "") && ctx.remOk u)
      some (update_reminder_status r.1 survey.id now,
        { initialSent := r.2, reminded := reminded })

/-- Source `ReminderService.send_immediate_reminder`: fetch the survey; if missing or
inactive, log and return 0 without processing; otherwise run the pass. -/
def send_immediate_reminder (ctx : SlackCtx) (db : DB) (survey_id : Nat) (now : Int) :
    Option (DB × PassReport) :=
  match get_survey_by_id db survey_id with
  | none => some (db, { initialSent := [], reminded := [] })
  | some s =>
      if s.is_active then sendRemindersForSurvey ctx db s now
      else some (db, { initialSent := [], reminded := [] })

/-- The per-survey loop of `check_and_send_reminders`, generic in the
per-survey processor `p`: each due survey is processed inside its own
`try/except`, so a failed survey (outcome `none`) contributes its partial
state effects and the loop continues with the next survey. -/
def processDueWith (p : Survey → DB → DB × Option PassReport) :
    List Survey → DB → DB × List (Nat × Option PassReport)
  | [], db => (db, [])
  | s :: rest, db =>
      let r := p s db
      let rs := processDueWith p rest r.1
      (rs.1, (s.id, r.2) :: rs.2)

/-- The real per-survey processor: run `_send_reminders_for_survey`; an
exception (`none`, raised during audience resolution before any write) leaves
the state unchanged and is caught by the tick. -/
def passProcessor (ctx : SlackCtx) (now : Int) (s : Survey) (db : DB) :
    DB × Option PassReport :=
  match sendRemindersForSurvey ctx db s now with
  | some (db1, rep) => (db1, some rep)
  | none => (db, none)

/-- Source `ReminderService.check_and_send_reminders`: query the due surveys, then
process each one independently, collecting the per-survey outcome. -/
def check_and_send_reminders (ctx : SlackCtx) (db : DB) (now : Int) :
    DB × List (Nat × Option PassReport) :=
  processDueWith (passProcessor ctx now) (get_surveys_needing_reminder db now) db

/-- One iteration of `ReminderService._run_loop`: `asyncio.run(tick)` wrapped
in `try/except` — when the tick raises (`tickFails`, e.g. the due-survey query
fails, which in the source happens before any per-survey processing), the
exception is logged and the loop keeps its state and continues. -/
def run_loop_iteration (ctx : SlackCtx) (tickFails : Bool) (db : DB) (now : Int) : DB :=
  if tickFails then db else (check_and_send_reminders ctx db now).1

/-- The background loop over a finite schedule of ticks, each with its own
wall-clock time and tick-level failure flag. -/
def run_loop (ctx : SlackCtx) : List (Bool × Int) → DB → DB
  | [], db => db
  | (tickFails, now) :: rest, db =>
      run_loop ctx rest (run_loop_iteration ctx tickFails db now)

/-! ### Response intake (`SurveyHandler.handle_survey_submit`) -/

/-- Outcome reported to the submitting user. -/
inductive SubmitResult where
  | couldNotRetrieveAnswer
  | alreadyResponded
  | saved
deriving DecidableEq, Repr

/-- Source `handle_survey_submit`: a missing or empty (falsy) answer is rejected
("Error: Could not retrieve answer."); then `check_user_responded` — if the
pair already has a response, acknowledge "You have already responded" and
return without inserting; otherwise `add_response`.  The handler performs no
`is_active` check anywhere on this path. -/
def handle_survey_submit (db : DB) (survey_id : Nat) (user_id user_name : String)
    (answer : Option String) : DB × SubmitResult :=
  match answer with
  | none => (db, SubmitResult.couldNotRetrieveAnswer)
  | some a =>
      if a = "" then (db, SubmitResult.couldNotRetrieveAnswer)
      else if check_user_responded db survey_id user_id then
        (db, SubmitResult.alreadyResponded)
      else
        (add_response db survey_id user_id user_name a, SubmitResult.saved)

/-- One submit call: the arguments of `handle_survey_submit`. -/
structure SubmitCall where
  survey_id : Nat
  user_id : String
  user_name : String
  answer : Option String
deriving DecidableEq, Repr

/-- Run a sequence of submit calls, discarding the per-call acknowledgements. -/
def runSubmits : DB → List SubmitCall → DB
  | db, [] => db
  | db, c :: rest =>
      runSubmits (handle_survey_submit db c.survey_id c.user_id c.user_name c.answer).1 rest

/-! ### The operations of the core, as a single step relation -/

/-- Every state-changing operation of the core: response intake, lifecycle
transitions, moderation-list updates, the raw ledger inserts, the background
tick and the manual immediate reminder. -/
inductive Op where
  | submit (survey_id : Nat) (user_id user_name : String) (answer : Option String)
  | create (survey_name survey_text owner_slack_id owner_name : String)
      (reminder_interval_hours : Int) (now : Int)
  | close (survey_id : Nat)
  | updateModerationLists (survey_id : Nat) (users_incl users_excl : Option String)
  | recordSent (survey_id : Nat) (receiver_slack_id message_ts : String)
  | rawAddResponse (survey_id : Nat) (responder_slack_id responder_name answer : String)
  | tick (ctx : SlackCtx) (now : Int)
  | sendImmediate (ctx : SlackCtx) (survey_id : Nat) (now : Int)

/-- The state transition of one operation.  `sendImmediate` keeps the prior
state when the pass raises (resolution failure happens before any write). -/
def step (db : DB) : Op → DB
  | Op.submit sid uid uname ans => (handle_survey_submit db sid uid uname ans).1
  | Op.create n t oid oname interval now => create_survey db n t oid oname interval now
  | Op.close sid => (close_survey db sid).1
  | Op.updateModerationLists sid incl excl => update_survey_moderation_lists db sid incl excl
  | Op.recordSent sid uid ts => add_sent_message db sid uid ts
  | Op.rawAddResponse sid uid uname ans => add_response db sid uid uname ans
  | Op.tick ctx now => (check_and_send_reminders ctx db now).1
  | Op.sendImmediate ctx sid now =>
      match send_immediate_reminder ctx db sid now with
      | some (db1, _) => db1
      | none => db

/-- Run a sequence of operations. -/
def run : DB → List Op → DB
  | db, [] => db
  | db, op :: rest => run (step db op) rest

/-- Well-formed store: survey ids are below the autoincrement counter and
are pairwise distinct (primary-key uniqueness). -/
def WF (db : DB) : Prop :=
  (∀ s ∈ db.surveys, s.id < db.next_id) ∧ (db.surveys.map (fun s => s.id)).Nodup

/-- The wall-clock instant an operation observes via `datetime.utcnow()`,
when it observes one. -/
def opNow : Op → Option Int
  | Op.create _ _ _ _ _ now => some now
  | Op.tick _ now => some now
  | Op.sendImmediate _ _ now => some now
  | _ => none

/-- The clock hypothesis for a schedule of operations: starting from a bound
`t`, every observed `utcnow()` is at least the previous one (an operation
that observes no clock keeps the bound). -/
def ClockOK : Int → List Op → Prop
  | _, [] => True
  | t, op :: rest =>
      t ≤ (opNow op).getD t ∧ ClockOK ((opNow op).getD t) rest

/-- Order on optional timestamps: a missing timestamp precedes everything; a
present one never moves back to missing and only moves forward. -/
def optTimeLE : Option Int → Option Int → Prop
  | none, _ => True
  | some _, none => False
  | some a, some b => a ≤ b

instance instDecOptTimeLE : ∀ a b : Option Int, Decidable (optTimeLE a b)
  | none, _ => Decidable.isTrue trivial
  | some _, none => Decidable.isFalse (fun h => h)
  | some a, some b => inferInstanceAs (Decidable (a ≤ b))

instance instDecClockOK : ∀ (t : Int) (ops : List Op), Decidable (ClockOK t ops)
  | _, [] => Decidable.isTrue trivial
  | t, op :: rest =>
      letI := instDecClockOK ((opNow op).getD t) rest
      inferInstanceAs (Decidable (t ≤ (opNow op).getD t ∧ ClockOK ((opNow op).getD t) rest))

/-- All stored reminder timestamps are bounded by `t`. -/
def stampsLE (db : DB) (t : Int) : Prop :=
  ∀ s ∈ db.surveys, optTimeLE s.last_reminder_sent_at (some t)

instance instDecStampsLE (db : DB) (t : Int) : Decidable (stampsLE db t) :=
  inferInstanceAs (Decidable (∀ s ∈ db.surveys, optTimeLE s.last_reminder_sent_at (some t)))

/-! ### Lemmas: enumeration of finite sets -/

theorem mem_enumFinset {a : String} {s : Finset String} : a ∈ enumFinset s ↔ a ∈ s := by
  rcases s with ⟨m, nd⟩
  revert nd
  refine Quotient.inductionOn m ?_
  intro l nd
  show a ∈ List.insertionSort slackIdLe l ↔ _
  rw [(List.perm_insertionSort slackIdLe l).mem_iff]
  simp [Finset.mem_mk]

theorem nodup_enumFinset (s : Finset String) : (enumFinset s).Nodup := by
  rcases s with ⟨m, nd⟩
  revert nd
  refine Quotient.inductionOn m ?_
  intro l nd
  exact (List.perm_insertionSort slackIdLe l).nodup_iff.mpr nd

theorem toFinset_enumFinset (s : Finset String) : (enumFinset s).toFinset = s := by
  ext a
  simp [List.mem_toFinset, mem_enumFinset]

/-! ### Lemmas: survey lookup and update -/

theorem find?_map_invariant {α : Type} (g : α → α) (p : α → Bool)
    (h : ∀ a, p (g a) = p a) :
    ∀ l : List α, (l.map g).find? p = (l.find? p).map g
  | [] => rfl
  | x :: xs => by
      by_cases hx : p x = true
      · rw [List.map_cons, List.find?_cons_of_pos _ (by rw [h]; exact hx),
          List.find?_cons_of_pos _ hx, Option.map_some']
      · have hx' : ¬ p x = true := hx
        rw [List.map_cons, List.find?_cons_of_neg _ (by rw [h]; exact hx'),
          List.find?_cons_of_neg _ hx', find?_map_invariant g p h xs]

theorem get_survey_by_id_update (db : DB) (sid sid2 : Nat) (f : Survey → Survey)
    (hf : ∀ t, (f t).id = t.id) :
    get_survey_by_id (updateSurveyById db sid f) sid2 =
      (get_survey_by_id db sid2).map (fun t => if t.id == sid then f t else t) := by
  unfold get_survey_by_id updateSurveyById
  refine find?_map_invariant _ _ ?_ db.surveys
  intro a
  by_cases h : a.id == sid
  · simp [h, hf]
  · simp [h]

theorem updateSurveyById_sent (db : DB) (sid : Nat) (f : Survey → Survey) :
    (updateSurveyById db sid f).sent_messages = db.sent_messages := rfl

theorem updateSurveyById_responses (db : DB) (sid : Nat) (f : Survey → Survey) :
    (updateSurveyById db sid f).responses = db.responses := rfl

theorem update_reminder_status_sent (db : DB) (sid : Nat) (now : Int) :
    (update_reminder_status db sid now).sent_messages = db.sent_messages := by
  unfold update_reminder_status
  cases get_survey_by_id db sid <;> rfl

theorem update_reminder_status_responses (db : DB) (sid : Nat) (now : Int) :
    (update_reminder_status db sid now).responses = db.responses := by
  unfold update_reminder_status
  cases get_survey_by_id db sid <;> rfl

/-! ### Lemmas: responses and submit -/

theorem check_user_responded_iff (db : DB) (sid : Nat) (uid : String) :
    check_user_responded db sid uid = true ↔ 0 < countResponses db sid uid := by
  unfold check_user_responded countResponses
  rw [List.any_eq_true, List.countP_pos_iff]

theorem countResponses_add_response (db : DB) (sid' : Nat) (uid' n a : String)
    (sid : Nat) (uid : String) :
    countResponses (add_response db sid' uid' n a) sid uid =
      countResponses db sid uid + (if sid' = sid ∧ uid' = uid then 1 else 0) := by
  unfold countResponses add_response
  rw [List.countP_append, List.countP_cons, List.countP_nil]
  by_cases h : sid' = sid ∧ uid' = uid
  · simp [h.1, h.2]
  · rcases not_and_or.mp h with h1 | h1 <;> simp [h, h1]

theorem countResponses_submit_le (db : DB) (c : SubmitCall) (sid : Nat) (uid : String)
    (h : countResponses db sid uid ≤ 1) :
    countResponses (handle_survey_submit db c.survey_id c.user_id c.user_name c.answer).1
      sid uid ≤ 1 := by
  rcases c with ⟨csid, cuid, cname, cans⟩
  cases cans with
  | none => exact h
  | some a =>
      by_cases ha : a = ""
      · simpa [handle_survey_submit, ha] using h
      · by_cases hresp : check_user_responded db csid cuid = true
        · simpa [handle_survey_submit, ha, hresp] using h
        · have hz0 : countResponses db csid cuid = 0 := by
            rcases Nat.eq_zero_or_pos (countResponses db csid cuid) with h0 | hpos
            · exact h0
            · exact absurd ((check_user_responded_iff db csid cuid).mpr hpos) hresp
          have hstep :
              (handle_survey_submit db csid cuid cname (some a)).1 =
                add_response db csid cuid cname a := by
            simp [handle_survey_submit, ha, hresp]
          rw [hstep, countResponses_add_response]
          by_cases hpair : csid = sid ∧ cuid = uid
          · rcases hpair with ⟨h1, h2⟩
            subst h1; subst h2
            simp [hz0]
          · rw [if_neg hpair]
            omega

theorem countResponses_runSubmits_le (calls : List SubmitCall) (db : DB) (sid : Nat)
    (uid : String) (h : countResponses db sid uid ≤ 1) :
    countResponses (runSubmits db calls) sid uid ≤ 1 := by
  induction calls generalizing db with
  | nil => exact h
  | cons c rest ih =>
      exact ih _ (countResponses_submit_le db c sid uid h)

/-! ### Lemmas: audience resolution -/

theorem pyInt_of_strip_empty {tok : String} (h : pyStrip tok = "") : pyInt tok = none := by
  unfold pyInt
  rw [h]

theorem union_sdiff_sdiff (a b c : Finset String) : (a \ b) \ c = a \ (b ∪ c) := by
  ext x
  simp only [Finset.mem_sdiff, Finset.mem_union]
  tauto

theorem unionListsReminder_eq (db : DB) :
    ∀ (toks : List String) (acc : Finset String),
      (∀ tok ∈ toks, pyStrip tok = "" ∨ (pyInt tok).isSome) →
      unionListsReminder db toks acc =
        some (acc ∪ (toks.filterMap pyInt).toFinset.biUnion db.list_members)
  | [], acc, _ => by simp [unionListsReminder]
  | tok :: rest, acc, h => by
      have hrest : ∀ t ∈ rest, pyStrip t = "" ∨ (pyInt t).isSome :=
        fun t ht => h t (List.mem_cons_of_mem _ ht)
      by_cases hskip : pyStrip tok = ""
      · have hnone : pyInt tok = none := pyInt_of_strip_empty hskip
        rw [unionListsReminder, if_pos hskip, unionListsReminder_eq db rest acc hrest,
          List.filterMap_cons_none hnone]
      · rcases h tok (List.mem_cons_self _ _) with h1 | h1
        · exact absurd h1 hskip
        · obtain ⟨i, hi⟩ := Option.isSome_iff_exists.mp h1
          rw [unionListsReminder, if_neg hskip, hi]
          show unionListsReminder db rest (acc ∪ db.list_members i) = _
          rw [unionListsReminder_eq db rest (acc ∪ db.list_members i) hrest,
            List.filterMap_cons_some hi]
          congr 1
          rw [List.toFinset_cons, Finset.biUnion_insert, Finset.union_assoc]

theorem diffListsReminder_eq (db : DB) :
    ∀ (toks : List String) (acc : Finset String),
      (∀ tok ∈ toks, pyStrip tok = "" ∨ (pyInt tok).isSome) →
      diffListsReminder db toks acc =
        some (acc \ (toks.filterMap pyInt).toFinset.biUnion db.list_members)
  | [], acc, _ => by simp [diffListsReminder]
  | tok :: rest, acc, h => by
      have hrest : ∀ t ∈ rest, pyStrip t = "" ∨ (pyInt t).isSome :=
        fun t ht => h t (List.mem_cons_of_mem _ ht)
      by_cases hskip : pyStrip tok = ""
      · have hnone : pyInt tok = none := pyInt_of_strip_empty hskip
        rw [diffListsReminder, if_pos hskip, diffListsReminder_eq db rest acc hrest,
          List.filterMap_cons_none hnone]
      · rcases h tok (List.mem_cons_self _ _) with h1 | h1
        · exact absurd h1 hskip
        · obtain ⟨i, hi⟩ := Option.isSome_iff_exists.mp h1
          rw [diffListsReminder, if_neg hskip, hi]
          show diffListsReminder db rest (acc \ db.list_members i) = _
          rw [diffListsReminder_eq db rest (acc \ db.list_members i) hrest,
            List.filterMap_cons_some hi]
          congr 1
          rw [List.toFinset_cons, Finset.biUnion_insert, union_sdiff_sdiff]

theorem unionListsStart_eq (db : DB) :
    ∀ (toks : List String) (acc : Finset String),
      (∀ tok ∈ toks, (pyInt tok).isSome) →
      unionListsStart db toks acc =
        some (acc ∪ (toks.filterMap pyInt).toFinset.biUnion db.list_members)
  | [], acc, _ => by simp [unionListsStart]
  | tok :: rest, acc, h => by
      have hrest : ∀ t ∈ rest, (pyInt t).isSome :=
        fun t ht => h t (List.mem_cons_of_mem _ ht)
      obtain ⟨i, hi⟩ := Option.isSome_iff_exists.mp (h tok (List.mem_cons_self _ _))
      rw [unionListsStart, hi]
      show unionListsStart db rest (acc ∪ db.list_members i) = _
      rw [unionListsStart_eq db rest (acc ∪ db.list_members i) hrest,
        List.filterMap_cons_some hi]
      congr 1
      rw [List.toFinset_cons, Finset.biUnion_insert, Finset.union_assoc]

theorem diffListsStart_eq (db : DB) :
    ∀ (toks : List String) (acc : Finset String),
      (∀ tok ∈ toks, (pyInt tok).isSome) →
      diffListsStart db toks acc =
        some (acc \ (toks.filterMap pyInt).toFinset.biUnion db.list_members)
  | [], acc, _ => by simp [diffListsStart]
  | tok :: rest, acc, h => by
      have hrest : ∀ t ∈ rest, (pyInt t).isSome :=
        fun t ht => h t (List.mem_cons_of_mem _ ht)
      obtain ⟨i, hi⟩ := Option.isSome_iff_exists.mp (h tok (List.mem_cons_self _ _))
      rw [diffListsStart, hi]
      show diffListsStart db rest (acc \ db.list_members i) = _
      rw [diffListsStart_eq db rest (acc \ db.list_members i) hrest,
        List.filterMap_cons_some hi]
      congr 1
      rw [List.toFinset_cons, Finset.biUnion_insert, union_sdiff_sdiff]

theorem resolveTargetReminder_eq (db : DB) (s : Survey)
    (hincl : ∀ tok ∈ splitField s.users_incl, pyStrip tok = "" ∨ (pyInt tok).isSome)
    (hexcl : ∀ tok ∈ splitField s.users_excl, pyStrip tok = "" ∨ (pyInt tok).isSome) :
    resolveTargetReminder db s = some (resolveSpecFormula db s) := by
  unfold resolveTargetReminder
  rw [unionListsReminder_eq db _ _ hincl]
  show diffListsReminder db (splitField s.users_excl)
      (∅ ∪ (List.filterMap pyInt (splitField s.users_incl)).toFinset.biUnion db.list_members) = _
  rw [diffListsReminder_eq db _ _ hexcl]
  unfold resolveSpecFormula
  rw [Finset.empty_union]

theorem resolveTargetStart_eq (db : DB) (s : Survey)
    (hincl : ∀ tok ∈ splitField s.users_incl, (pyInt tok).isSome)
    (hexcl : ∀ tok ∈ splitField s.users_excl, (pyInt tok).isSome) :
    resolveTargetStart db s = some (resolveSpecFormula db s) := by
  unfold resolveTargetStart
  rw [unionListsStart_eq db _ _ hincl]
  show diffListsStart db (splitField s.users_excl)
      (∅ ∪ (List.filterMap pyInt (splitField s.users_incl)).toFinset.biUnion db.list_members) = _
  rw [diffListsStart_eq db _ _ hexcl]
  unfold resolveSpecFormula
  rw [Finset.empty_union]

/-! ### Lemmas: the reminder pass -/

theorem sendInitialMessages_frame (ctx : SlackCtx) (sid : Nat) :
    ∀ (users : List String) (db : DB),
      (sendInitialMessages ctx sid users db).1.surveys = db.surveys ∧
      (sendInitialMessages ctx sid users db).1.responses = db.responses ∧
      (sendInitialMessages ctx sid users db).1.next_id = db.next_id
  | [], db => ⟨rfl, rfl, rfl⟩
  | u :: rest, db => by
      by_cases hdbg : (ctx.debug && !(decide (u ∈ ctx.admins))) = true
      · rw [sendInitialMessages, if_pos hdbg]
        exact sendInitialMessages_frame ctx sid rest db
      · by_cases hok : ctx.initOk u = true
        · rw [sendInitialMessages, if_neg hdbg, if_pos hok]
          exact sendInitialMessages_frame ctx sid rest
            (add_sent_message db sid u (ctx.newTs u))
        · rw [sendInitialMessages, if_neg hdbg, if_neg hok]
          exact sendInitialMessages_frame ctx sid rest db

theorem countSent_add_sent_message (db : DB) (sid' : Nat) (u' ts : String)
    (sid : Nat) (u : String) :
    countSent (add_sent_message db sid' u' ts) sid u =
      countSent db sid u + (if sid' = sid ∧ u' = u then 1 else 0) := by
  unfold countSent add_sent_message
  rw [List.countP_append, List.countP_cons, List.countP_nil]
  by_cases h : sid' = sid ∧ u' = u
  · simp [h.1, h.2]
  · rcases not_and_or.mp h with h1 | h1 <;> simp [h, h1]

theorem countSent_sendInitialMessages_le (ctx : SlackCtx) (sid : Nat) :
    ∀ (users : List String) (db : DB), users.Nodup → ∀ (sid2 : Nat) (u : String),
      countSent (sendInitialMessages ctx sid users db).1 sid2 u ≤
        countSent db sid2 u + (if sid = sid2 ∧ u ∈ users then 1 else 0)
  | [], db, _, sid2, u => by simp [sendInitialMessages]
  | v :: rest, db, hnd, sid2, u => by
      have hnd' : rest.Nodup := hnd.of_cons
      have hmono : (if sid = sid2 ∧ u ∈ rest then 1 else 0) ≤
          (if sid = sid2 ∧ u ∈ v :: rest then 1 else 0) := by
        by_cases h : sid = sid2 ∧ u ∈ rest
        · rw [if_pos h, if_pos ⟨h.1, List.mem_cons_of_mem _ h.2⟩]
        · rw [if_neg h]
          omega
      by_cases hdbgv : (ctx.debug && !(decide (v ∈ ctx.admins))) = true
      · rw [sendInitialMessages, if_pos hdbgv]
        have ihdb := countSent_sendInitialMessages_le ctx sid rest db hnd' sid2 u
        omega
      · by_cases hok : ctx.initOk v = true
        · rw [sendInitialMessages, if_neg hdbgv, if_pos hok]
          show countSent
              (sendInitialMessages ctx sid rest (add_sent_message db sid v (ctx.newTs v))).1
              sid2 u ≤ _
          have ih2 := countSent_sendInitialMessages_le ctx sid rest
            (add_sent_message db sid v (ctx.newTs v)) hnd' sid2 u
          rw [countSent_add_sent_message] at ih2
          by_cases hv : v = u
          · subst hv
            have hvr : v ∉ rest := (List.nodup_cons.mp hnd).1
            have hB : (if sid = sid2 ∧ v ∈ rest then 1 else 0) = 0 := by
              rw [if_neg]
              exact fun hc => hvr hc.2
            have hAC : (if sid = sid2 ∧ v = v then 1 else 0) =
                (if sid = sid2 ∧ v ∈ v :: rest then 1 else 0) := by
              by_cases hs : sid = sid2
              · rw [if_pos ⟨hs, rfl⟩, if_pos ⟨hs, List.mem_cons_self _ _⟩]
              · rw [if_neg (fun hc => hs hc.1), if_neg (fun hc => hs hc.1)]
            omega
          · have hA : (if sid = sid2 ∧ v = u then 1 else 0) = 0 := by
              rw [if_neg]
              exact fun hc => hv hc.2
            have hBC : (if sid = sid2 ∧ u ∈ rest then 1 else 0) =
                (if sid = sid2 ∧ u ∈ v :: rest then 1 else 0) := by
              by_cases h : sid = sid2 ∧ u ∈ rest
              · rw [if_pos h, if_pos ⟨h.1, List.mem_cons_of_mem _ h.2⟩]
              · rw [if_neg h, if_neg]
                rintro ⟨hs2, hm⟩
                rcases List.mem_cons.mp hm with h1 | h1
                · exact hv h1.symm
                · exact h ⟨hs2, h1⟩
            omega
        · rw [sendInitialMessages, if_neg hdbgv, if_neg hok]
          have ihdb := countSent_sendInitialMessages_le ctx sid rest db hnd' sid2 u
          omega

theorem countSent_eq_zero_of_not_mem (db : DB) (sid : Nat) (u : String)
    (h : u ∉ sentUserIds db sid) : countSent db sid u = 0 := by
  rcases Nat.eq_zero_or_pos (countSent db sid u) with h0 | hpos
  · exact h0
  · exfalso
    obtain ⟨m, hm, hp⟩ := List.countP_pos_iff.mp hpos
    apply h
    have hps : m.survey_id = sid ∧ m.receiver_slack_id = u := by
      have := hp
      simp only [Bool.and_eq_true, beq_iff_eq] at this
      exact this
    refine List.mem_toFinset.mpr ?_
    refine List.mem_map.mpr ⟨m, ?_, hps.2⟩
    exact List.mem_filter.mpr ⟨hm, by simp [hps.1]⟩

theorem sendRemindersForSurvey_eq (ctx : SlackCtx) (db : DB) (survey : Survey) (now : Int)
    (target : Finset String) (h : resolveTargetReminder db survey = some target) :
    sendRemindersForSurvey ctx db survey now =
      some (update_reminder_status
              (sendInitialMessages ctx survey.id
                (enumFinset (target \ sentUserIds db survey.id)) db).1 survey.id now,
            { initialSent :=
                (sendInitialMessages ctx survey.id
                  (enumFinset (target \ sentUserIds db survey.id)) db).2,
              reminded :=
                (enumFinset
                    ((sentUserIds db survey.id \ respondedUserIds db survey.id) ∩ target)).filter
                  (fun u =>
                    ((lookupTs (get_sent_messages db survey.id) u).getD "" != "") &&
                      ctx.remOk u) }) := by
  unfold sendRemindersForSurvey
  rw [h]

theorem lookupTs_mem (msgs : List SurveySentMessageRow) (u : String) (ts : String)
    (h : lookupTs msgs u = some ts) :
    ∃ m ∈ msgs, m.receiver_slack_id = u ∧ m.message_ts = ts := by
  unfold lookupTs at h
  obtain ⟨m, hfind, hts⟩ := Option.map_eq_some'.mp h
  refine ⟨m, List.mem_reverse.mp (List.mem_of_find?_eq_some hfind), ?_, hts⟩
  have := List.find?_some hfind
  simpa using this

theorem lookupTs_isSome (msgs : List SurveySentMessageRow) (u : String)
    (h : ∃ m ∈ msgs, m.receiver_slack_id = u) : (lookupTs msgs u).isSome := by
  obtain ⟨m, hm, hmu⟩ := h
  unfold lookupTs
  rw [Option.isSome_map']
  rw [List.find?_isSome]
  exact ⟨m, List.mem_reverse.mpr hm, by simp [hmu]⟩

theorem mem_sentUserIds (db : DB) (sid : Nat) (u : String) :
    u ∈ sentUserIds db sid ↔ ∃ m ∈ get_sent_messages db sid, m.receiver_slack_id = u := by
  unfold sentUserIds
  rw [List.mem_toFinset, List.mem_map]

theorem reminded_filter_all (db : DB) (sid : Nat) (ctx : SlackCtx) (target : Finset String)
    (hrem : ∀ u, ctx.remOk u = true)
    (hts : ∀ m ∈ db.sent_messages, m.message_ts ≠ "") :
    ((enumFinset ((sentUserIds db sid \ respondedUserIds db sid) ∩ target)).filter
        (fun u =>
          ((lookupTs (get_sent_messages db sid) u).getD "" != "") && ctx.remOk u)).toFinset =
      (sentUserIds db sid \ respondedUserIds db sid) ∩ target := by
  ext u
  rw [List.mem_toFinset, List.mem_filter]
  constructor
  · rintro ⟨hu, _⟩
    exact mem_enumFinset.mp hu
  · intro hu
    refine ⟨mem_enumFinset.mpr hu, ?_⟩
    have husent : u ∈ sentUserIds db sid := (Finset.mem_sdiff.mp (Finset.mem_inter.mp hu).1).1
    have hsome := lookupTs_isSome (get_sent_messages db sid) u ((mem_sentUserIds db sid u).mp husent)
    obtain ⟨ts, htss⟩ := Option.isSome_iff_exists.mp hsome
    obtain ⟨m, hm, _, hmts⟩ := lookupTs_mem _ u ts htss
    have hne : ts ≠ "" := hmts ▸ hts m (List.mem_filter.mp hm).1
    rw [htss]
    simp [hne, hrem u]

theorem get_survey_by_id_of_surveys_eq {db db' : DB} (h : db'.surveys = db.surveys)
    (sid : Nat) : get_survey_by_id db' sid = get_survey_by_id db sid := by
  unfold get_survey_by_id
  rw [h]

theorem get_survey_by_id_update_reminder_status (db : DB) (sid : Nat) (now : Int)
    (s0 : Survey) (h : get_survey_by_id db sid = some s0) :
    get_survey_by_id (update_reminder_status db sid now) sid =
      some { s0 with last_reminder_sent_at := some now,
                     reminders_sent_count := some (s0.reminders_sent_count.getD 0 + 1) } := by
  have h' : db.surveys.find? (fun s => s.id == sid) = some s0 := h
  have hid : (s0.id == sid) = true := by
    have := List.find?_some h'
    simpa using this
  unfold update_reminder_status
  rw [h]
  show get_survey_by_id
      (updateSurveyById db sid (fun t =>
        { t with last_reminder_sent_at := some now,
                 reminders_sent_count := some (t.reminders_sent_count.getD 0 + 1) })) sid = _
  rw [get_survey_by_id_update db sid sid
      (fun t =>
        { t with last_reminder_sent_at := some now,
                 reminders_sent_count := some (t.reminders_sent_count.getD 0 + 1) })
      (fun t => rfl), h, Option.map_some', if_pos hid]

/-! ### Lemmas: the tick -/

theorem processDueWith_ids (p : Survey → DB → DB × Option PassReport) :
    ∀ (l : List Survey) (db : DB),
      ((processDueWith p l db).2).map Prod.fst = l.map (fun s => s.id)
  | [], _ => rfl
  | s :: rest, db => by
      show ((processDueWith p rest (p s db).1).1,
          (s.id, (p s db).2) :: (processDueWith p rest (p s db).1).2).2.map Prod.fst = _
    
      rw [List.map_cons, List.map_cons, processDueWith_ids p rest (p s db).1]

/-! ### Concrete fixtures used by witnesses and counterexamples -/

/-- A survey used by several witnesses: active, include list 1, no exclude. -/
def sFix : Survey :=
  { id := 1, survey_name := "S", survey_text := "Q", owner_slack_id := "O",
    owner_name := "Owner", is_active := true, users_incl := some "1",
    users_excl := none, reminder_interval_hours := 1, last_reminder_sent_at := none,
    reminders_sent_count := some 0, created_at := 0 }

/-- A Slack context whose sends always succeed. -/
def ctxFix : SlackCtx :=
  { debug := false, admins := ∅, initOk := fun _ => true, remOk := fun _ => true,
    newTs := fun _ => "ts1" }

/-! ### Claim theorems -/

/-- Claim C1: for every (survey, recipient) pair and every sequence of submit
calls (`handle_survey_submit` guarded by `check_user_responded`), at most one
Response row exists for the pair at the end; and a submit for a pair that
already has a Response returns the "already responded" acknowledgement with
the store unchanged (no second row, no error). -/
theorem c1_at_most_one_response (db : DB) (calls : List SubmitCall) (sid : Nat)
    (uid uname a : String) (h : countResponses db sid uid ≤ 1) :
    countResponses (runSubmits db calls) sid uid ≤ 1 ∧
      (0 < countResponses db sid uid → a ≠ "" →
        handle_survey_submit db sid uid uname (some a) =
          (db, SubmitResult.alreadyResponded)) := by
  refine ⟨countResponses_runSubmits_le calls db sid uid h, ?_⟩
  intro hpos ha
  have hresp := (check_user_responded_iff db sid uid).mpr hpos
  simp [handle_survey_submit, ha, hresp]

/-- Store for the C1 witness: one existing response for pair (1, u1). -/
def dbC1 : DB :=
  { surveys := [], responses := [⟨1, "u1", "User One", "yes"⟩], sent_messages := [],
    list_members := fun _ => ∅, next_id := 2 }

/-- Submit calls for the C1 witness: a duplicate submit and a fresh one. -/
def callsC1 : List SubmitCall :=
  [⟨1, "u1", "User One", some "again"⟩, ⟨1, "u2", "User Two", some "no"⟩]

theorem c1_at_most_one_response_witness :
    countResponses dbC1 1 "u1" ≤ 1 ∧ 0 < countResponses dbC1 1 "u1" ∧
      (countResponses (runSubmits dbC1 callsC1) 1 "u1" ≤ 1 ∧
        (0 < countResponses dbC1 1 "u1" → "again" ≠ "" →
          handle_survey_submit dbC1 1 "u1" "User One" (some "again") =
            (dbC1, SubmitResult.alreadyResponded))) :=
  ⟨by decide, by decide,
    c1_at_most_one_response dbC1 callsC1 1 "u1" "User One" "again" (by decide)⟩

/-- Store for the C2 counterexample: one SentRecord already exists for
pair (1, u1). -/
def dbC2 : DB :=
  { surveys := [], responses := [], sent_messages := [⟨1, "u1", "t1"⟩],
    list_members := fun _ => ∅, next_id := 2 }

/-- Claim C2 counterexample: `add_sent_message` invoked for a pair that
already has a SentRecord does not fail — it inserts a second row, so two
records for the pair exist afterwards. -/
theorem c2_counterexample :
    countSent dbC2 1 "u1" = 1 ∧
      countSent (add_sent_message dbC2 1 "u1" "t2") 1 "u1" = 2 := by decide

/-- The invariant "at most one SentRecord per (survey, recipient) pair",
phrased as pairwise distinctness of the stored rows (decidable on concrete
stores). -/
def sentPairsUnique (db : DB) : Prop :=
  List.Pairwise
    (fun m1 m2 =>
      ¬(m1.survey_id = m2.survey_id ∧ m1.receiver_slack_id = m2.receiver_slack_id))
    db.sent_messages

theorem countP_pair_le_one (sid : Nat) (u : String) :
    ∀ l : List SurveySentMessageRow,
      List.Pairwise
        (fun m1 m2 =>
          ¬(m1.survey_id = m2.survey_id ∧ m1.receiver_slack_id = m2.receiver_slack_id)) l →
      l.countP (fun m => m.survey_id == sid && m.receiver_slack_id == u) ≤ 1
  | [], _ => by simp
  | m :: rest, h => by
      rcases List.pairwise_cons.mp h with ⟨hhead, htail⟩
      rw [List.countP_cons]
      by_cases hm : (m.survey_id == sid && m.receiver_slack_id == u) = true
      · have hm' : m.survey_id = sid ∧ m.receiver_slack_id = u := by
          simpa using hm
        have hrest : rest.countP
            (fun x => x.survey_id == sid && x.receiver_slack_id == u) = 0 := by
          rw [List.countP_eq_zero]
          intro m2 hm2 hmatch
          have hm2' : m2.survey_id = sid ∧ m2.receiver_slack_id = u := by
            simpa using hmatch
          exact hhead m2 hm2 ⟨hm'.1.trans hm2'.1.symm, hm'.2.trans hm2'.2.symm⟩
        rw [hrest, if_pos hm]
      · rw [if_neg hm]
        have := countP_pair_le_one sid u rest htail
        omega

theorem countSent_le_one_of_pairsUnique (db : DB) (hone : sentPairsUnique db)
    (sid : Nat) (u : String) : countSent db sid u ≤ 1 :=
  countP_pair_le_one sid u db.sent_messages hone

/-- Claim C2 (amended): `add_sent_message` inserts unconditionally and never
raises a duplicate-send error, so invoking the send-and-record step twice
from the same pre-state yields two records for the pair (see the
counterexample).  What does hold: a single reminder pass sends initial
messages only to `target − already_sent`, so a pass started from a store with
at most one SentRecord per pair ends with at most one SentRecord per pair. -/
theorem c2_amended_pass_preserves (ctx : SlackCtx) (db : DB) (survey : Survey)
    (now : Int) (hone : sentPairsUnique db) (sid : Nat) (u : String) :
    (sendRemindersForSurvey ctx db survey now).elim True
      (fun p => countSent p.1 sid u ≤ 1) := by
  cases hres : resolveTargetReminder db survey with
  | none =>
      rw [sendRemindersForSurvey, hres]
      trivial
  | some target =>
      rw [sendRemindersForSurvey_eq ctx db survey now target hres]
      show countSent (update_reminder_status
        (sendInitialMessages ctx survey.id
          (enumFinset (target \ sentUserIds db survey.id)) db).1 survey.id now) sid u ≤ 1
      have hsent : countSent (update_reminder_status
          (sendInitialMessages ctx survey.id
            (enumFinset (target \ sentUserIds db survey.id)) db).1 survey.id now) sid u =
          countSent (sendInitialMessages ctx survey.id
            (enumFinset (target \ sentUserIds db survey.id)) db).1 sid u := by
        unfold countSent
        rw [update_reminder_status_sent]
      rw [hsent]
      have hnodup := nodup_enumFinset (target \ sentUserIds db survey.id)
      have hle := countSent_sendInitialMessages_le ctx survey.id
        (enumFinset (target \ sentUserIds db survey.id)) db hnodup sid u
      by_cases hmem : survey.id = sid ∧ u ∈ enumFinset (target \ sentUserIds db survey.id)
      · rcases hmem with ⟨hs, hm⟩
        have hu : u ∈ target \ sentUserIds db survey.id := mem_enumFinset.mp hm
        have hnot : u ∉ sentUserIds db survey.id := (Finset.mem_sdiff.mp hu).2
        have h0 : countSent db survey.id u = 0 :=
          countSent_eq_zero_of_not_mem db survey.id u hnot
        rw [if_pos ⟨hs, hm⟩] at hle
        subst hs
        omega
      · rw [if_neg hmem] at hle
        have := countSent_le_one_of_pairsUnique db hone sid u
        omega

/-- Store for the C2 witness: survey 1 targets u1 and u2; u1 already has a
SentRecord, u2 is new. -/
def dbC2w : DB :=
  { surveys := [sFix], responses := [], sent_messages := [⟨1, "u1", "t1"⟩],
    list_members := fun i => if i = 1 then {"u1", "u2"} else ∅, next_id := 2 }

theorem c2_amended_pass_preserves_witness :
    sentPairsUnique dbC2w ∧
      (sendRemindersForSurvey ctxFix dbC2w sFix 5).elim True
        (fun p => countSent p.1 1 "u2" ≤ 1) :=
  ⟨by unfold sentPairsUnique; decide,
    c2_amended_pass_preserves ctxFix dbC2w sFix 5 (by unfold sentPairsUnique; decide) 1 "u2"⟩

/-- Store for the C3 counterexample: survey 1 targets exactly u1, who has
never been messaged and has not responded. -/
def dbC3 : DB :=
  { surveys := [sFix], responses := [], sent_messages := [],
    list_members := fun i => if i = 1 then {"u1"} else ∅, next_id := 2 }

/-- Claim C3 counterexample: u1 is in the current target, receives the
initial message during this very pass (`initialSent = ["u1"]`), has no
Response — yet the pass sends no reminder (`reminded = []`), because the code
computes the unanswered set from the sent rows snapshotted before the new
initial sends.  The claim, which places newly-just-sent recipients in the
reminder set, is false on this input. -/
theorem c3_counterexample :
    resolveTargetReminder dbC3 sFix = some {"u1"} ∧
      respondedUserIds dbC3 1 = ∅ ∧
      (sendRemindersForSurvey ctxFix dbC3 sFix 5).map (fun p => p.2) =
        some { initialSent := ["u1"], reminded := [] } := by decide

/-- Claim C3 (amended): in each per-survey reminder pass the reminder set is
`already_sent ∩ target − responded`, computed from the sent rows as they were
at the start of the pass: every recipient with a pre-existing SentRecord who
is still in the currently-resolved target and has no Response receives a
reminder (assuming the reminder sends succeed and the stored message handles
are non-empty); recipients no longer in the current target receive none, and
recipients first messaged during this same pass also receive none — their
first reminder can come only from a later pass. -/
theorem c3_amended_reminded_set (ctx : SlackCtx) (db : DB) (survey : Survey)
    (now : Int) (target : Finset String)
    (hres : resolveTargetReminder db survey = some target)
    (hrem : ∀ u, ctx.remOk u = true)
    (hts : ∀ m ∈ db.sent_messages, m.message_ts ≠ "") :
    (sendRemindersForSurvey ctx db survey now).map (fun p => p.2.reminded.toFinset) =
      some ((sentUserIds db survey.id ∩ target) \ respondedUserIds db survey.id) := by
  rw [sendRemindersForSurvey_eq ctx db survey now target hres, Option.map_some']
  congr 1
  rw [reminded_filter_all db survey.id ctx target hrem hts]
  ext x
  simp only [Finset.mem_sdiff, Finset.mem_inter]
  tauto

/-- Store for the C3 witness: u1 was sent the survey earlier and never
answered; u2 was sent it and answered; u3 was sent it but is no longer in the
target audience. -/
def dbC3w : DB :=
  { surveys := [sFix], responses := [⟨1, "u2", "User Two", "fine"⟩],
    sent_messages := [⟨1, "u1", "t1"⟩, ⟨1, "u2", "t2"⟩, ⟨1, "u3", "t3"⟩],
    list_members := fun i => if i = 1 then {"u1", "u2"} else ∅, next_id := 2 }

theorem c3_amended_reminded_set_witness :
    resolveTargetReminder dbC3w sFix = some {"u1", "u2"} ∧
      (sendRemindersForSurvey ctxFix dbC3w sFix 5).map
          (fun p => p.2.reminded.toFinset) =
        some ((sentUserIds dbC3w 1 ∩ {"u1", "u2"}) \ respondedUserIds dbC3w 1) :=
  ⟨by decide,
    c3_amended_reminded_set ctxFix dbC3w sFix 5 {"u1", "u2"} (by decide)
      (fun u => rfl) (by decide)⟩

/-- Claim C4: the reminder-engine audience resolver starts from the empty
set, unions the members of every include list, then subtracts the members of
every exclude list — `resolveSpecFormula` is literally
`(∪ members(Iᵢ)) \\ (∪ members(Eⱼ))` — and an empty `include_list_refs`
yields the empty target set.  (The hypotheses say every comma token either
strips to empty — such tokens are skipped — or parses as an integer list id;
otherwise the source raises `ValueError`.) -/
theorem c4_resolver_formula (db : DB) (s : Survey)
    (hincl : ∀ tok ∈ splitField s.users_incl, pyStrip tok = "" ∨ (pyInt tok).isSome)
    (hexcl : ∀ tok ∈ splitField s.users_excl, pyStrip tok = "" ∨ (pyInt tok).isSome) :
    resolveTargetReminder db s = some (resolveSpecFormula db s) ∧
      (splitField s.users_incl = [] → resolveTargetReminder db s = some ∅) := by
  have hmain := resolveTargetReminder_eq db s hincl hexcl
  refine ⟨hmain, ?_⟩
  intro hempty
  rw [hmain]
  unfold resolveSpecFormula
  rw [hempty]
  simp

/-- Store for the C4 witness, realizing the spec example: list A = 1 has
members {u1, u2, u3}, list B = 2 has members {u3, u4}. -/
def dbC4 : DB :=
  { surveys := [], responses := [], sent_messages := [],
    list_members := fun i =>
      if i = 1 then {"u1", "u2", "u3"} else if i = 2 then {"u3", "u4"} else ∅,
    next_id := 1 }

/-- Survey for the C4 witness: include = [A], exclude = [B]. -/
def sC4 : Survey :=
  { sFix with users_incl := some "1", users_excl := some "2" }

theorem c4_resolver_formula_witness :
    (resolveTargetReminder dbC4 sC4 = some (resolveSpecFormula dbC4 sC4) ∧
      (splitField sC4.users_incl = [] → resolveTargetReminder dbC4 sC4 = some ∅)) ∧
      resolveSpecFormula dbC4 sC4 = {"u1", "u2"} :=
  ⟨c4_resolver_formula dbC4 sC4 (by decide) (by decide), by decide⟩

/-- Claim C6: a per-survey reminder pass that runs to completion ends by
calling `update_reminder_status`, which sets `last_reminder_sent_at` to the
current time and increments `reminders_sent_count` by exactly one (a missing
count counting as 0) — regardless of how many initial messages or reminders
were sent, including none. -/
theorem c6_pass_updates_status (ctx : SlackCtx) (db : DB) (survey : Survey)
    (now : Int) (target : Finset String) (s0 : Survey)
    (hres : resolveTargetReminder db survey = some target)
    (hs0 : get_survey_by_id db survey.id = some s0) :
    (sendRemindersForSurvey ctx db survey now).map
        (fun p => get_survey_by_id p.1 survey.id) =
      some (some { s0 with
        last_reminder_sent_at := some now,
        reminders_sent_count := some (s0.reminders_sent_count.getD 0 + 1) }) := by
  rw [sendRemindersForSurvey_eq ctx db survey now target hres, Option.map_some']
  congr 1
  have hframe := (sendInitialMessages_frame ctx survey.id
    (enumFinset (target \ sentUserIds db survey.id)) db).1
  have hlook : get_survey_by_id
      (sendInitialMessages ctx survey.id
        (enumFinset (target \ sentUserIds db survey.id)) db).1 survey.id = some s0 := by
    rw [get_survey_by_id_of_surveys_eq hframe]
    exact hs0
  exact get_survey_by_id_update_reminder_status _ survey.id now s0 hlook

/-- Store for the C6 witness: the survey's include field is NULL, so the
target is empty and the pass sends no initial message and no reminder — yet
the counter advances and the timestamp is set. -/
def sC6 : Survey := { sFix with users_incl := none }

/-- C6 witness store. -/
def dbC6 : DB :=
  { surveys := [sC6], responses := [], sent_messages := [],
    list_members := fun _ => ∅, next_id := 2 }

theorem c6_pass_updates_status_witness :
    (sendRemindersForSurvey ctxFix dbC6 sC6 7).map (fun p => p.2) =
        some { initialSent := [], reminded := [] } ∧
      (sendRemindersForSurvey ctxFix dbC6 sC6 7).map
          (fun p => get_survey_by_id p.1 1) =
        some (some { sC6 with
          last_reminder_sent_at := some 7, reminders_sent_count := some 1 }) :=
  ⟨by decide, c6_pass_updates_status ctxFix dbC6 sC6 7 ∅ sC6 (by decide) (by decide)⟩

/-- Claim C9: in one tick, each due survey is processed inside its own
`try/except`, so for every per-survey processor behaviour `p` — including
ones that fail on any subset of surveys — the tick attempts every due survey
exactly once, in order (first conjunct for an arbitrary processor, second for
the real tick); and `_run_loop` catches every tick-level exception, so a
failing tick leaves the loop state unchanged and the loop proceeds with the
remaining iterations (third conjunct). -/
theorem c9_failure_isolation :
    (∀ (p : Survey → DB → DB × Option PassReport) (db : DB) (now : Int),
        ((processDueWith p (get_surveys_needing_reminder db now) db).2).map Prod.fst =
          (get_surveys_needing_reminder db now).map (fun s => s.id)) ∧
      (∀ (ctx : SlackCtx) (db : DB) (now : Int),
        ((check_and_send_reminders ctx db now).2).map Prod.fst =
          (get_surveys_needing_reminder db now).map (fun s => s.id)) ∧
      (∀ (ctx : SlackCtx) (db : DB) (now : Int) (rest : List (Bool × Int)),
        run_loop ctx ((true, now) :: rest) db = run_loop ctx rest db) :=
  ⟨fun p db now => processDueWith_ids p (get_surveys_needing_reminder db now) db,
    fun ctx db now =>
      processDueWith_ids (passProcessor ctx now) (get_surveys_needing_reminder db now) db,
    fun _ _ _ _ => rfl⟩

/-- Claim C10: under the claim's hypothesis — every comma token of
`users_incl`/`users_excl` is a non-empty (non-whitespace) string that parses
as an integer list id — the audience resolution inside the reminder engine
and the one inside the manual survey-start handler compute the same target
set from the same list-membership state. -/
theorem c10_resolvers_agree (db : DB) (s : Survey)
    (h : ∀ tok ∈ splitField s.users_incl ++ splitField s.users_excl,
        pyStrip tok ≠ "" ∧ (pyInt tok).isSome) :
    resolveTargetStart db s = resolveTargetReminder db s := by
  have hincl : ∀ tok ∈ splitField s.users_incl, (pyInt tok).isSome :=
    fun tok ht => (h tok (List.mem_append_left _ ht)).2
  have hexcl : ∀ tok ∈ splitField s.users_excl, (pyInt tok).isSome :=
    fun tok ht => (h tok (List.mem_append_right _ ht)).2
  rw [resolveTargetStart_eq db s hincl hexcl,
    resolveTargetReminder_eq db s (fun tok ht => Or.inr (hincl tok ht))
      (fun tok ht => Or.inr (hexcl tok ht))]

/-- Survey for the C10 witness: include lists 1 and 2, exclude list 3. -/
def sC10 : Survey :=
  { sFix with users_incl := some "1,2", users_excl := some "3" }

/-- Store for the C10 witness. -/
def dbC10 : DB :=
  { surveys := [sC10], responses := [], sent_messages := [],
    list_members := fun i =>
      if i = 1 then {"u1", "u2"} else if i = 2 then {"u3"} else
        if i = 3 then {"u2"} else ∅,
    next_id := 2 }

theorem c10_resolvers_agree_witness :
    resolveTargetStart dbC10 sC10 = resolveTargetReminder dbC10 sC10 ∧
      resolveTargetStart dbC10 sC10 = some {"u1", "u3"} :=
  ⟨c10_resolvers_agree dbC10 sC10 (by decide), by decide⟩

/-- Survey for the C8 failing input: survey 1 has been closed
(`is_active = false`). -/
def sC8 : Survey := { sFix with is_active := false }

/-- Store for the C8 failing input. -/
def dbC8 : DB :=
  { surveys := [sC8], responses := [], sent_messages := [],
    list_members := fun _ => ∅, next_id := 2 }

/-- Claim C8, evaluated at the failing input: the survey is inactive, the
submitting user has no prior response and a non-empty answer, and
`handle_survey_submit` — which never consults `is_active` — inserts a new
Response row and reports success instead of rejecting the submission. -/
theorem c8_code_evaluation :
    (get_survey_by_id dbC8 1).map (fun s => s.is_active) = some false ∧
      countResponses dbC8 1 "u1" = 0 ∧
      (handle_survey_submit dbC8 1 "u1" "User One" (some "hi")).2 =
        SubmitResult.saved ∧
      countResponses (handle_survey_submit dbC8 1 "u1" "User One" (some "hi")).1
          1 "u1" = 1 := by decide

/-! ### Lemmas: permanence of the closed state (C5) -/

/-- Every stored row of survey `sid` is inactive. -/
def InactiveAll (db : DB) (sid : Nat) : Prop :=
  ∀ s ∈ db.surveys, s.id = sid → s.is_active = false

theorem InactiveAll_of_surveys_eq {db db' : DB} (h : db'.surveys = db.surveys)
    {sid : Nat} (hi : InactiveAll db sid) : InactiveAll db' sid := by
  intro s hs hsid
  rw [h] at hs
  exact hi s hs hsid

theorem InactiveAll_updateSurveyById {db : DB} {sid : Nat} (sid' : Nat)
    (f : Survey → Survey)
    (hf : ∀ t, (f t).id = t.id ∧ ((f t).is_active = t.is_active ∨ (f t).is_active = false))
    (hi : InactiveAll db sid) : InactiveAll (updateSurveyById db sid' f) sid := by
  intro s hs hsid
  obtain ⟨t, ht, hmap⟩ := List.mem_map.mp hs
  by_cases hc : (t.id == sid') = true
  · rw [if_pos hc] at hmap
    subst hmap
    rcases (hf t).2 with hp | hp
    · rw [hp]
      exact hi t ht (by rw [← (hf t).1]; exact hsid)
    · exact hp
  · rw [if_neg hc] at hmap
    subst hmap
    exact hi t ht hsid

theorem update_reminder_status_next_id (db : DB) (sid : Nat) (now : Int) :
    (update_reminder_status db sid now).next_id = db.next_id := by
  unfold update_reminder_status
  cases get_survey_by_id db sid <;> rfl

theorem InactiveAll_update_reminder_status {db : DB} {sid : Nat} (sid' : Nat) (now : Int)
    (hi : InactiveAll db sid) : InactiveAll (update_reminder_status db sid' now) sid := by
  unfold update_reminder_status
  cases get_survey_by_id db sid' with
  | none => exact hi
  | some _ =>
      exact InactiveAll_updateSurveyById sid' _ (fun t => ⟨rfl, Or.inl rfl⟩) hi

theorem pass_preserves_closed (ctx : SlackCtx) (now : Int) (survey : Survey)
    (db : DB) (sid : Nat) (hlt : sid < db.next_id) (hi : InactiveAll db sid) :
    sid < ((passProcessor ctx now survey db).1).next_id ∧
      InactiveAll ((passProcessor ctx now survey db).1) sid := by
  unfold passProcessor
  cases hres : resolveTargetReminder db survey with
  | none =>
      rw [sendRemindersForSurvey, hres]
      exact ⟨hlt, hi⟩
  | some target =>
      rw [sendRemindersForSurvey_eq ctx db survey now target hres]
      have hframe := sendInitialMessages_frame ctx survey.id
        (enumFinset (target \ sentUserIds db survey.id)) db
      constructor
      · rw [update_reminder_status_next_id, hframe.2.2]
        exact hlt
      · exact InactiveAll_update_reminder_status survey.id now
          (InactiveAll_of_surveys_eq hframe.1 hi)

theorem processDueWith_preserves_closed (ctx : SlackCtx) (now : Int) (sid : Nat) :
    ∀ (l : List Survey) (db : DB), sid < db.next_id → InactiveAll db sid →
      sid < ((processDueWith (passProcessor ctx now) l db).1).next_id ∧
        InactiveAll ((processDueWith (passProcessor ctx now) l db).1) sid
  | [], db, hlt, hi => ⟨hlt, hi⟩
  | s :: rest, db, hlt, hi => by
      have hstep := pass_preserves_closed ctx now s db sid hlt hi
      exact processDueWith_preserves_closed ctx now sid rest
        ((passProcessor ctx now) s db).1 hstep.1 hstep.2

theorem handle_survey_submit_frame (db : DB) (sid : Nat) (uid uname : String)
    (ans : Option String) :
    ((handle_survey_submit db sid uid uname ans).1).surveys = db.surveys ∧
      ((handle_survey_submit db sid uid uname ans).1).next_id = db.next_id ∧
      ((handle_survey_submit db sid uid uname ans).1).sent_messages = db.sent_messages := by
  cases ans with
  | none => exact ⟨rfl, rfl, rfl⟩
  | some a =>
      by_cases ha : a = ""
      · refine ⟨?_, ?_, ?_⟩ <;> simp [handle_survey_submit, ha]
      · by_cases hresp : check_user_responded db sid uid = true
        · refine ⟨?_, ?_, ?_⟩ <;> simp [handle_survey_submit, ha, hresp]
        · refine ⟨?_, ?_, ?_⟩ <;> simp [handle_survey_submit, ha, hresp, add_response]

theorem send_immediate_of_inactive (ctx : SlackCtx) (db : DB) (sid : Nat) (now : Int)
    (hi : InactiveAll db sid) :
    send_immediate_reminder ctx db sid now =
      some (db, { initialSent := [], reminded := [] }) := by
  unfold send_immediate_reminder
  cases hl : get_survey_by_id db sid with
  | none => rfl
  | some s =>
      have hmem : s ∈ db.surveys := List.mem_of_find?_eq_some hl
      have hsid : s.id = sid := by
        have := List.find?_some hl
        simpa using this
      have hin : s.is_active = false := hi s hmem hsid
      simp [hin]

theorem step_preserves_closed (db : DB) (sid : Nat) (op : Op)
    (hlt : sid < db.next_id) (hi : InactiveAll db sid) :
    sid < (step db op).next_id ∧ InactiveAll (step db op) sid := by
  cases op with
  | submit sid' uid uname ans =>
      show sid < ((handle_survey_submit db sid' uid uname ans).1).next_id ∧
        InactiveAll ((handle_survey_submit db sid' uid uname ans).1) sid
      have hf := handle_survey_submit_frame db sid' uid uname ans
      exact ⟨by rw [hf.2.1]; exact hlt, InactiveAll_of_surveys_eq hf.1 hi⟩
  | create n t oid oname interval now =>
      constructor
      · show sid < db.next_id + 1
        omega
      · intro s hs hsid
        rcases List.mem_append.mp hs with hold | hnew
        · exact hi s hold hsid
        · exfalso
          have hs1 : s.id = db.next_id := by
            rcases List.mem_singleton.mp hnew with rfl
            rfl
          omega
  | close sid' =>
      show sid < ((close_survey db sid').1).next_id ∧ InactiveAll ((close_survey db sid').1) sid
      unfold close_survey
      cases get_survey_by_id db sid' with
      | none => exact ⟨hlt, hi⟩
      | some _ =>
          exact ⟨hlt,
            InactiveAll_updateSurveyById sid' _ (fun t => ⟨rfl, Or.inr rfl⟩) hi⟩
  | updateModerationLists sid' incl excl =>
      show sid < (update_survey_moderation_lists db sid' incl excl).next_id ∧
        InactiveAll (update_survey_moderation_lists db sid' incl excl) sid
      unfold update_survey_moderation_lists
      cases get_survey_by_id db sid' with
      | none => exact ⟨hlt, hi⟩
      | some _ =>
          exact ⟨hlt,
            InactiveAll_updateSurveyById sid' _ (fun t => ⟨rfl, Or.inl rfl⟩) hi⟩
  | recordSent sid' uid ts => exact ⟨hlt, hi⟩
  | rawAddResponse sid' uid uname ans => exact ⟨hlt, hi⟩
  | tick ctx now =>
      exact processDueWith_preserves_closed ctx now sid
        (get_surveys_needing_reminder db now) db hlt hi
  | sendImmediate ctx sid' now =>
      show sid < (match send_immediate_reminder ctx db sid' now with
          | some (db1, _) => db1
          | none => db).next_id ∧
        InactiveAll (match send_immediate_reminder ctx db sid' now with
          | some (db1, _) => db1
          | none => db) sid
      cases hl : get_survey_by_id db sid' with
      | none =>
          have he : send_immediate_reminder ctx db sid' now =
              some (db, { initialSent := [], reminded := [] }) := by
            unfold send_immediate_reminder
            rw [hl]
          rw [he]
          exact ⟨hlt, hi⟩
      | some s =>
          by_cases hact : s.is_active = true
          · cases hres : sendRemindersForSurvey ctx db s now with
            | none =>
                have he : send_immediate_reminder ctx db sid' now = none := by
                  unfold send_immediate_reminder
                  rw [hl]
                  show (if s.is_active = true then sendRemindersForSurvey ctx db s now
                    else some (db, { initialSent := [], reminded := [] })) = none
                  rw [if_pos hact, hres]
                rw [he]
                exact ⟨hlt, hi⟩
            | some p =>
                obtain ⟨db1, rep⟩ := p
                have he : send_immediate_reminder ctx db sid' now = some (db1, rep) := by
                  unfold send_immediate_reminder
                  rw [hl]
                  show (if s.is_active = true then sendRemindersForSurvey ctx db s now
                    else some (db, { initialSent := [], reminded := [] })) = some (db1, rep)
                  rw [if_pos hact, hres]
                rw [he]
                show sid < db1.next_id ∧ InactiveAll db1 sid
                have hpp : (passProcessor ctx now s db).1 = db1 := by
                  unfold passProcessor
                  rw [hres]
                rw [← hpp]
                exact pass_preserves_closed ctx now s db sid hlt hi
          · have he : send_immediate_reminder ctx db sid' now =
                some (db, { initialSent := [], reminded := [] }) := by
              unfold send_immediate_reminder
              rw [hl]
              show (if s.is_active = true then sendRemindersForSurvey ctx db s now
                else some (db, { initialSent := [], reminded := [] })) =
                some (db, { initialSent := [], reminded := [] })
              rw [if_neg hact]
            rw [he]
            exact ⟨hlt, hi⟩

theorem run_preserves_closed (sid : Nat) :
    ∀ (ops : List Op) (db : DB), sid < db.next_id → InactiveAll db sid →
      sid < (run db ops).next_id ∧ InactiveAll (run db ops) sid
  | [], _, hlt, hi => ⟨hlt, hi⟩
  | op :: rest, db, hlt, hi => by
      have hstep := step_preserves_closed db sid op hlt hi
      exact run_preserves_closed sid rest (step db op) hstep.1 hstep.2

theorem mem_due (db : DB) (now : Int) (t : Survey)
    (h : t ∈ get_surveys_needing_reminder db now) :
    t ∈ db.surveys ∧ t.is_active = true ∧ 0 < t.reminder_interval_hours := by
  unfold get_surveys_needing_reminder at h
  obtain ⟨h2, _⟩ := List.mem_filter.mp h
  obtain ⟨hmem, hcond⟩ := List.mem_filter.mp h2
  rcases (Bool.and_eq_true _ _).mp hcond with ⟨hact, hpos⟩
  exact ⟨hmem, hact, of_decide_eq_true hpos⟩

/-- Claim C5: once `close_survey` has set a survey inactive, after any
further sequence of core operations: the due-survey query keeps only surveys
with `is_active` true and positive `reminder_interval_hours`; a reminder tick
runs no pass for the closed survey (so it sends zero initial messages and
zero reminders for it); and `send_immediate_reminder` performs nothing for
it, returning the state unchanged. -/
theorem c5_closed_surveys_silenced (db : DB) (sid : Nat) (s : Survey) (ops : List Op)
    (ctx : SlackCtx) (now : Int)
    (hwf : ∀ t ∈ db.surveys, t.id < db.next_id)
    (hex : get_survey_by_id db sid = some s) :
    ((get_surveys_needing_reminder (run (close_survey db sid).1 ops) now).all
        (fun t => t.is_active && decide (0 < t.reminder_interval_hours)) = true) ∧
      sid ∉ ((check_and_send_reminders ctx (run (close_survey db sid).1 ops) now).2.map
        Prod.fst) ∧
      send_immediate_reminder ctx (run (close_survey db sid).1 ops) sid now =
        some (run (close_survey db sid).1 ops, { initialSent := [], reminded := [] }) := by
  have hmem : s ∈ db.surveys := List.mem_of_find?_eq_some hex
  have hsid : s.id = sid := by
    have := List.find?_some hex
    simpa using this
  have hlt : sid < db.next_id := hsid ▸ hwf s hmem
  have hclose : sid < ((close_survey db sid).1).next_id ∧
      InactiveAll ((close_survey db sid).1) sid := by
    unfold close_survey
    rw [hex]
    show sid < (updateSurveyById db sid _).next_id ∧
      InactiveAll (updateSurveyById db sid _) sid
    refine ⟨hlt, ?_⟩
    intro t ht htid
    obtain ⟨t0, ht0, hmap⟩ := List.mem_map.mp ht
    by_cases hc : (t0.id == sid) = true
    · rw [if_pos hc] at hmap
      subst hmap
      rfl
    · rw [if_neg hc] at hmap
      subst hmap
      exact absurd htid (by simpa using hc)
  have hrun := run_preserves_closed sid ops ((close_survey db sid).1) hclose.1 hclose.2
  refine ⟨?_, ?_, ?_⟩
  · rw [List.all_eq_true]
    intro t ht
    obtain ⟨_, hact, hpos⟩ := mem_due _ now t ht
    rw [hact]
    simp [hpos]
  · show sid ∉ ((processDueWith (passProcessor ctx now)
      (get_surveys_needing_reminder (run (close_survey db sid).1 ops) now)
      (run (close_survey db sid).1 ops)).2.map Prod.fst)
    rw [processDueWith_ids]
    intro hmem2
    obtain ⟨t, htdue, htid⟩ := List.mem_map.mp hmem2
    obtain ⟨htm, hact, _⟩ := mem_due _ now t htdue
    have hfalse : t.is_active = false := hrun.2 t htm htid
    rw [hact] at hfalse
    exact Bool.noConfusion hfalse
  · exact send_immediate_of_inactive ctx _ sid now hrun.2

/-- Store for the C5 witness. -/
def dbC5 : DB :=
  { surveys := [sFix], responses := [], sent_messages := [],
    list_members := fun i => if i = 1 then {"u1"} else ∅, next_id := 2 }

/-- A schedule of post-close operations for the C5 witness, exercising every
operation kind. -/
def opsC5 : List Op :=
  [Op.submit 1 "u1" "User One" (some "hi"), Op.tick ctxFix 5,
   Op.create "T" "Q2" "O" "Owner" 1 6, Op.updateModerationLists 1 (some "1") none,
   Op.recordSent 1 "u1" "t9", Op.rawAddResponse 1 "u9" "User Nine" "x",
   Op.sendImmediate ctxFix 1 7]

theorem c5_closed_surveys_silenced_witness :
    ((get_surveys_needing_reminder (run (close_survey dbC5 1).1 opsC5) 9).all
        (fun t => t.is_active && decide (0 < t.reminder_interval_hours)) = true) ∧
      1 ∉ ((check_and_send_reminders ctxFix (run (close_survey dbC5 1).1 opsC5) 9).2.map
        Prod.fst) ∧
      send_immediate_reminder ctxFix (run (close_survey dbC5 1).1 opsC5) 1 9 =
        some (run (close_survey dbC5 1).1 opsC5, { initialSent := [], reminded := [] }) :=
  c5_closed_surveys_silenced dbC5 1 sFix opsC5 ctxFix 9 (by decide) (by decide)

/-! ### Lemmas: monotonicity of the reminder bookkeeping (C7) -/

/-- Between two stores, the survey found under `sid` (if any) keeps a
non-decreasing reminder count and a non-receding reminder timestamp. -/
def monoAt (db db' : DB) (sid : Nat) : Prop :=
  ∀ s, get_survey_by_id db sid = some s →
    ∃ s', get_survey_by_id db' sid = some s' ∧
      s.reminders_sent_count.getD 0 ≤ s'.reminders_sent_count.getD 0 ∧
      optTimeLE s.last_reminder_sent_at s'.last_reminder_sent_at

theorem optTimeLE_refl : ∀ o : Option Int, optTimeLE o o
  | none => trivial
  | some a => le_refl a

theorem optTimeLE_trans :
    ∀ {a b c : Option Int}, optTimeLE a b → optTimeLE b c → optTimeLE a c
  | none, _, _, _, _ => trivial
  | some _, none, _, h1, _ => absurd h1 (fun h => h)
  | some _, some _, none, _, h2 => absurd h2 (fun h => h)
  | some _, some _, some _, h1, h2 => le_trans h1 h2

theorem monoAt_refl (db : DB) (sid : Nat) : monoAt db db sid :=
  fun s hs => ⟨s, hs, le_refl _, optTimeLE_refl _⟩

theorem monoAt_trans {db1 db2 db3 : DB} {sid : Nat} (h1 : monoAt db1 db2 sid)
    (h2 : monoAt db2 db3 sid) : monoAt db1 db3 sid := by
  intro s hs
  obtain ⟨s', hs', hc, hl⟩ := h1 s hs
  obtain ⟨s'', hs'', hc', hl'⟩ := h2 s' hs'
  exact ⟨s'', hs'', le_trans hc hc', optTimeLE_trans hl hl'⟩

theorem monoAt_of_surveys_eq {db db' : DB} (h : db'.surveys = db.surveys) (sid : Nat) :
    monoAt db db' sid := by
  intro s hs
  refine ⟨s, ?_, le_refl _, optTimeLE_refl _⟩
  rw [get_survey_by_id_of_surveys_eq h]
  exact hs

theorem stampsLE_mono {db : DB} {t u : Int} (h : stampsLE db t) (htu : t ≤ u) :
    stampsLE db u := by
  intro s hs
  have := h s hs
  cases hx : s.last_reminder_sent_at with
  | none => trivial
  | some x =>
      rw [hx] at this
      exact le_trans this htu

theorem stampsLE_of_surveys_eq {db db' : DB} {t : Int} (hs : db'.surveys = db.surveys)
    (h : stampsLE db t) : stampsLE db' t := by
  intro s hmem
  rw [hs] at hmem
  exact h s hmem

theorem monoAt_updateSurveyById_fields (db : DB) (sid' : Nat) (f : Survey → Survey)
    (hid : ∀ t, (f t).id = t.id)
    (hcnt : ∀ t, (f t).reminders_sent_count = t.reminders_sent_count)
    (hlast : ∀ t, (f t).last_reminder_sent_at = t.last_reminder_sent_at)
    (sid : Nat) : monoAt db (updateSurveyById db sid' f) sid := by
  intro s hs
  rw [get_survey_by_id_update db sid' sid f hid, hs, Option.map_some']
  by_cases hc : (s.id == sid') = true
  · rw [if_pos hc]
    refine ⟨f s, rfl, by rw [hcnt], ?_⟩
    rw [hlast]
    exact optTimeLE_refl _
  · rw [if_neg hc]
    exact ⟨s, rfl, le_refl _, optTimeLE_refl _⟩

theorem stampsLE_updateSurveyById_fields (db : DB) (sid' : Nat) (f : Survey → Survey)
    (t : Int) (hlast : ∀ s, (f s).last_reminder_sent_at = s.last_reminder_sent_at)
    (h : stampsLE db t) : stampsLE (updateSurveyById db sid' f) t := by
  intro s hs
  obtain ⟨t0, ht0, hmap⟩ := List.mem_map.mp hs
  by_cases hc : (t0.id == sid') = true
  · rw [if_pos hc] at hmap
    subst hmap
    rw [hlast]
    exact h t0 ht0
  · rw [if_neg hc] at hmap
    subst hmap
    exact h t0 ht0

theorem monoAt_update_reminder_status (db : DB) (sid' : Nat) (u : Int)
    (hst : stampsLE db u) (sid : Nat) :
    monoAt db (update_reminder_status db sid' u) sid := by
  unfold update_reminder_status
  cases hl : get_survey_by_id db sid' with
  | none => exact monoAt_refl db sid
  | some s0 =>
      show monoAt db (updateSurveyById db sid' (fun t =>
        { t with last_reminder_sent_at := some u,
                 reminders_sent_count := some (t.reminders_sent_count.getD 0 + 1) })) sid
      intro s hs
      rw [get_survey_by_id_update db sid' sid
        (fun t =>
          { t with last_reminder_sent_at := some u,
                   reminders_sent_count := some (t.reminders_sent_count.getD 0 + 1) })
        (fun t => rfl), hs, Option.map_some']
      by_cases hc : (s.id == sid') = true
      · rw [if_pos hc]
        refine ⟨_, rfl, ?_, ?_⟩
        · show s.reminders_sent_count.getD 0 ≤
            (some (s.reminders_sent_count.getD 0 + 1)).getD 0
          rw [Option.getD_some]
          omega
        · show optTimeLE s.last_reminder_sent_at (some u)
          exact hst s (List.mem_of_find?_eq_some hs)
      · rw [if_neg hc]
        exact ⟨s, rfl, le_refl _, optTimeLE_refl _⟩

theorem stampsLE_update_reminder_status (db : DB) (sid' : Nat) (u : Int)
    (hst : stampsLE db u) : stampsLE (update_reminder_status db sid' u) u := by
  unfold update_reminder_status
  cases get_survey_by_id db sid' with
  | none => exact hst
  | some s0 =>
      show stampsLE (updateSurveyById db sid' (fun t =>
        { t with last_reminder_sent_at := some u,
                 reminders_sent_count := some (t.reminders_sent_count.getD 0 + 1) })) u
      intro s hs
      obtain ⟨t0, ht0, hmap⟩ := List.mem_map.mp hs
      by_cases hc : (t0.id == sid') = true
      · rw [if_pos hc] at hmap
        subst hmap
        show optTimeLE (some u) (some u)
        exact le_refl u
      · rw [if_neg hc] at hmap
        subst hmap
        exact hst t0 ht0

theorem pass_mono (ctx : SlackCtx) (u : Int) (survey : Survey) (db : DB)
    (hst : stampsLE db u) :
    (∀ sid, monoAt db ((passProcessor ctx u survey db).1) sid) ∧
      stampsLE ((passProcessor ctx u survey db).1) u := by
  unfold passProcessor
  cases hres : resolveTargetReminder db survey with
  | none =>
      rw [sendRemindersForSurvey, hres]
      exact ⟨fun sid => monoAt_refl db sid, hst⟩
  | some target =>
      rw [sendRemindersForSurvey_eq ctx db survey u target hres]
      have hframe := sendInitialMessages_frame ctx survey.id
        (enumFinset (target \ sentUserIds db survey.id)) db
      have h1 : stampsLE (sendInitialMessages ctx survey.id
          (enumFinset (target \ sentUserIds db survey.id)) db).1 u :=
        stampsLE_of_surveys_eq hframe.1 hst
      constructor
      · intro sid
        exact monoAt_trans (monoAt_of_surveys_eq hframe.1 sid)
          (monoAt_update_reminder_status _ survey.id u h1 sid)
      · exact stampsLE_update_reminder_status _ survey.id u h1

theorem processDue_mono (ctx : SlackCtx) (u : Int) :
    ∀ (l : List Survey) (db : DB), stampsLE db u →
      (∀ sid, monoAt db ((processDueWith (passProcessor ctx u) l db).1) sid) ∧
        stampsLE ((processDueWith (passProcessor ctx u) l db).1) u
  | [], db, hst => ⟨fun sid => monoAt_refl db sid, hst⟩
  | s :: rest, db, hst => by
      have hp := pass_mono ctx u s db hst
      have hr := processDue_mono ctx u rest ((passProcessor ctx u) s db).1 hp.2
      exact ⟨fun sid => monoAt_trans (hp.1 sid) (hr.1 sid), hr.2⟩

theorem find?_append_of_some {α : Type} (p : α → Bool) :
    ∀ {l₁ : List α} {a : α}, l₁.find? p = some a → ∀ l₂, (l₁ ++ l₂).find? p = some a
  | [], a, h, _ => by simp at h
  | x :: xs, a, h, l₂ => by
      by_cases hx : p x = true
      · rw [List.find?_cons_of_pos _ hx] at h
        rw [List.cons_append, List.find?_cons_of_pos _ hx]
        exact h
      · rw [List.find?_cons_of_neg _ hx] at h
        rw [List.cons_append, List.find?_cons_of_neg _ hx]
        exact find?_append_of_some p h l₂

theorem step_mono (db : DB) (op : Op) (t : Int) (hst : stampsLE db t)
    (hck : t ≤ (opNow op).getD t) :
    (∀ sid, monoAt db (step db op) sid) ∧ stampsLE (step db op) ((opNow op).getD t) := by
  cases op with
  | submit sid' uid uname ans =>
      have hf := handle_survey_submit_frame db sid' uid uname ans
      exact ⟨fun sid => monoAt_of_surveys_eq hf.1 sid, stampsLE_of_surveys_eq hf.1 hst⟩
  | create n txt oid oname interval now =>
      have hnow : t ≤ now := hck
      constructor
      · intro sid s hs
        refine ⟨s, ?_, le_refl _, optTimeLE_refl _⟩
        show (db.surveys ++ [_]).find? (fun s => s.id == sid) = some s
        exact find?_append_of_some _ hs _
      · intro s hs
        rcases List.mem_append.mp hs with hold | hnew
        · exact stampsLE_mono hst hnow s hold
        · rcases List.mem_singleton.mp hnew with rfl
          trivial
  | close sid' =>
      show (∀ sid, monoAt db ((close_survey db sid').1) sid) ∧
        stampsLE ((close_survey db sid').1) t
      unfold close_survey
      cases hl : get_survey_by_id db sid' with
      | none => exact ⟨fun sid => monoAt_refl db sid, hst⟩
      | some s0 =>
          show (∀ sid, monoAt db
              (updateSurveyById db sid' (fun t => { t with is_active := false })) sid) ∧
            stampsLE (updateSurveyById db sid' (fun t => { t with is_active := false })) t
          exact ⟨fun sid => monoAt_updateSurveyById_fields db sid'
              (fun t => { t with is_active := false })
              (fun _ => rfl) (fun _ => rfl) (fun _ => rfl) sid,
            stampsLE_updateSurveyById_fields db sid'
              (fun t => { t with is_active := false }) t (fun _ => rfl) hst⟩
  | updateModerationLists sid' incl excl =>
      show (∀ sid, monoAt db (update_survey_moderation_lists db sid' incl excl) sid) ∧
        stampsLE (update_survey_moderation_lists db sid' incl excl) t
      unfold update_survey_moderation_lists
      cases hl : get_survey_by_id db sid' with
      | none => exact ⟨fun sid => monoAt_refl db sid, hst⟩
      | some s0 =>
          show (∀ sid, monoAt db (updateSurveyById db sid'
              (fun t => { t with users_incl := incl, users_excl := excl })) sid) ∧
            stampsLE (updateSurveyById db sid'
              (fun t => { t with users_incl := incl, users_excl := excl })) t
          exact ⟨fun sid => monoAt_updateSurveyById_fields db sid'
              (fun t => { t with users_incl := incl, users_excl := excl })
              (fun _ => rfl) (fun _ => rfl) (fun _ => rfl) sid,
            stampsLE_updateSurveyById_fields db sid'
              (fun t => { t with users_incl := incl, users_excl := excl }) t
              (fun _ => rfl) hst⟩
  | recordSent sid' uid ts =>
      exact ⟨fun sid => monoAt_of_surveys_eq rfl sid, stampsLE_of_surveys_eq rfl hst⟩
  | rawAddResponse sid' uid uname ans =>
      exact ⟨fun sid => monoAt_of_surveys_eq rfl sid, stampsLE_of_surveys_eq rfl hst⟩
  | tick ctx now =>
      have hnow : t ≤ now := hck
      exact processDue_mono ctx now (get_surveys_needing_reminder db now) db
        (stampsLE_mono hst hnow)
  | sendImmediate ctx sid' now =>
      have hnow : t ≤ now := hck
      have hstn : stampsLE db now := stampsLE_mono hst hnow
      show (∀ sid, monoAt db (match send_immediate_reminder ctx db sid' now with
          | some (db1, _) => db1
          | none => db) sid) ∧
        stampsLE (match send_immediate_reminder ctx db sid' now with
          | some (db1, _) => db1
          | none => db) now
      cases hl : get_survey_by_id db sid' with
      | none =>
          have he : send_immediate_reminder ctx db sid' now =
              some (db, { initialSent := [], reminded := [] }) := by
            unfold send_immediate_reminder
            rw [hl]
          rw [he]
          exact ⟨fun sid => monoAt_refl db sid, hstn⟩
      | some s0 =>
          by_cases hact : s0.is_active = true
          · cases hres : sendRemindersForSurvey ctx db s0 now with
            | none =>
                have he : send_immediate_reminder ctx db sid' now = none := by
                  unfold send_immediate_reminder
                  rw [hl]
                  show (if s0.is_active = true then sendRemindersForSurvey ctx db s0 now
                    else some (db, { initialSent := [], reminded := [] })) = none
                  rw [if_pos hact, hres]
                rw [he]
                exact ⟨fun sid => monoAt_refl db sid, hstn⟩
            | some p =>
                obtain ⟨db1, rep⟩ := p
                have he : send_immediate_reminder ctx db sid' now = some (db1, rep) := by
                  unfold send_immediate_reminder
                  rw [hl]
                  show (if s0.is_active = true then sendRemindersForSurvey ctx db s0 now
                    else some (db, { initialSent := [], reminded := [] })) = some (db1, rep)
                  rw [if_pos hact, hres]
                rw [he]
                show (∀ sid, monoAt db db1 sid) ∧ stampsLE db1 now
                have hpp : (passProcessor ctx now s0 db).1 = db1 := by
                  unfold passProcessor
                  rw [hres]
                rw [← hpp]
                exact pass_mono ctx now s0 db hstn
          · have he : send_immediate_reminder ctx db sid' now =
                some (db, { initialSent := [], reminded := [] }) := by
              unfold send_immediate_reminder
              rw [hl]
              show (if s0.is_active = true then sendRemindersForSurvey ctx db s0 now
                else some (db, { initialSent := [], reminded := [] })) =
                some (db, { initialSent := [], reminded := [] })
              rw [if_neg hact]
            rw [he]
            exact ⟨fun sid => monoAt_refl db sid, hstn⟩

theorem run_mono (sid : Nat) :
    ∀ (ops : List Op) (db : DB) (t : Int), stampsLE db t → ClockOK t ops →
      monoAt db (run db ops) sid
  | [], db, _, _, _ => monoAt_refl db sid
  | op :: rest, db, t, hst, hck => by
      obtain ⟨h1, h2⟩ := hck
      have hs := step_mono db op t hst h1
      exact monoAt_trans (hs.1 sid)
        (run_mono sid rest (step db op) ((opNow op).getD t) hs.2 h2)

/-- Claim C7: across any sequence of core operations whose observed clock
never runs backwards (and starts at or after every stored timestamp),
`reminders_sent_count` never decreases (a missing count counting as 0) and
`last_reminder_sent_at` never moves backward in time — the only writer of
these fields, `update_reminder_status`, maps the count to count + 1 and the
timestamp to the current time. -/
theorem c7_reminder_counters_monotone (db : DB) (ops : List Op) (t : Int)
    (sid : Nat) (s : Survey) (hst : stampsLE db t) (hck : ClockOK t ops)
    (hex : get_survey_by_id db sid = some s) :
    (get_survey_by_id (run db ops) sid).elim False
      (fun s' => s.reminders_sent_count.getD 0 ≤ s'.reminders_sent_count.getD 0 ∧
        optTimeLE s.last_reminder_sent_at s'.last_reminder_sent_at) := by
  obtain ⟨s', hs', hc, hl⟩ := run_mono sid ops db t hst hck s hex
  rw [hs']
  exact ⟨hc, hl⟩

/-- Store for the C7 witness. -/
def dbC7 : DB :=
  { surveys := [sFix], responses := [], sent_messages := [],
    list_members := fun i => if i = 1 then {"u1"} else ∅, next_id := 2 }

/-- Operation schedule for the C7 witness, with a non-decreasing clock. -/
def opsC7 : List Op :=
  [Op.tick ctxFix 5, Op.submit 1 "u1" "User One" (some "hi"),
   Op.sendImmediate ctxFix 1 8, Op.close 1, Op.create "T" "Q" "O" "Own" 2 9]

theorem c7_reminder_counters_monotone_witness :
    stampsLE dbC7 0 ∧ ClockOK 0 opsC7 ∧
      (get_survey_by_id (run dbC7 opsC7) 1).elim False
        (fun s' => sFix.reminders_sent_count.getD 0 ≤ s'.reminders_sent_count.getD 0 ∧
          optTimeLE sFix.last_reminder_sent_at s'.last_reminder_sent_at) :=
  ⟨by decide, by decide,
    c7_reminder_counters_monotone dbC7 opsC7 0 1 sFix (by decide) (by decide) (by decide)⟩

end SlackSurveyBot
